import Mathlib

/-!
Verification of the generic press-release extraction engine of the
python-statement repository (src/generic_scrapers.py,
src/python_statement/statement.py, src/fetch_legislators.py).

The Python code is shallowly embedded: BeautifulSoup documents are
represented by the element data each extractor actually consumes
(a container row carries the result of each `select_one` call the code
makes on it), `datetime.datetime.strptime` is modelled faithfully at the
character level (CPython's `_strptime` compiles each directive to a regex;
the directives used here are `%m`, `%d`, `%y`, `%Y`, `%B`, `%b` and
literal separators), and the page fetcher `Scraper.open_html`, which
returns a parsed document or `None`, is a parameter of type
`String → Option _`.

All string processing is done on `List Char` via structural recursion so
that every definition evaluates by kernel reduction.
-/

/-- ASCII-decimal digit test, the model of the regex class `\d` used by
CPython's `_strptime` on the inputs occurring here. -/
def isDigitC (c : Char) : Bool := decide ('0' ≤ c) && decide (c ≤ '9')

/-- Numeric value of a digit character. -/
def digitVal (c : Char) : Nat := c.toNat - 48

/-- Whitespace test, the model of `\s` (ASCII part) and of the characters
stripped by Python's `str.strip()` on the inputs occurring here. -/
def isWsC (c : Char) : Bool :=
  c = ' ' || c = '\t' || c = '\n' || c = '\r' || c = '\x0b' || c = '\x0c'

/-- Model of Python `str.strip()`. -/
def trimL (cs : List Char) : List Char :=
  ((cs.dropWhile isWsC).reverse.dropWhile isWsC).reverse

/-- Does `pat` occur as a prefix of `cs`? (Model of `str.startswith`.) -/
def startsWithL (pat : List Char) : List Char → Bool :=
  fun cs =>
    match pat, cs with
    | [], _ => true
    | _ :: _, [] => false
    | p :: ps, c :: rest => c = p && startsWithL ps rest

/-- Number of positions of `cs` at which `pat` occurs. -/
def countSub (pat : List Char) : List Char → Nat
  | [] => 0
  | c :: cs => (if startsWithL pat (c :: cs) then 1 else 0) + countSub pat cs

/-- Does `pat` occur anywhere in `cs`?  Model of Python's `in` operator on
strings, for a non-empty `pat`. -/
def hasSub (pat : List Char) : List Char → Bool
  | [] => false
  | c :: cs => startsWithL pat (c :: cs) || hasSub pat cs

/-- Decimal digit characters of `n`, with fuel; the model of Python's
decimal rendering `f"{n}"` of a non-negative integer is `natChars`. -/
def natCharsFuel : Nat → Nat → List Char
  | 0, _ => []
  | fuel + 1, n =>
    if n < 10 then [Nat.digitChar n]
    else natCharsFuel fuel (n / 10) ++ [Nat.digitChar (n % 10)]

/-- Decimal digit characters of `n` (e.g. `natChars 305 = ['3','0','5']`). -/
def natChars (n : Nat) : List Char := natCharsFuel (n + 1) n

/-- Decimal string of `n`: the model of Python's `f"{n}"` for `n : Nat`. -/
def natStr (n : Nat) : String := String.mk (natChars n)

/-- A calendar date as produced by `datetime.date`. -/
structure Date where
  year : Nat
  month : Nat
  day : Nat
deriving DecidableEq, Repr

/-- Gregorian leap-year test, as in `datetime`. -/
def isLeap (y : Nat) : Bool :=
  y % 4 = 0 && (y % 100 ≠ 0 || y % 400 = 0)

/-- Days in a month, as in `datetime`. -/
def daysInMonth (y m : Nat) : Nat :=
  if m = 2 then (if isLeap y then 29 else 28)
  else if m = 4 ∨ m = 6 ∨ m = 9 ∨ m = 11 then 30
  else 31

/-- Model of the `datetime.date(y, m, d)` constructor: `ValueError` on an
out-of-range component becomes `none`. -/
def mkDate (y m d : Nat) : Option Date :=
  if 1 ≤ y ∧ y ≤ 9999 ∧ 1 ≤ m ∧ m ≤ 12 ∧ 1 ≤ d ∧ d ≤ daysInMonth y m then
    some ⟨y, m, d⟩
  else none

/-- `dt` denotes a constructible `datetime.date`. -/
def validDateB (dt : Date) : Bool :=
  decide (1 ≤ dt.year) && decide (dt.year ≤ 9999) &&
  decide (1 ≤ dt.month) && decide (dt.month ≤ 12) &&
  decide (1 ≤ dt.day) && decide (dt.day ≤ daysInMonth dt.year dt.month)

/-- Reader for the `%m` directive.  CPython compiles `%m` to the regex
`1[0-2]|0[1-9]|[1-9]`; the alternatives are tried in that order and, as the
following literal in every format used here is a non-digit, backtracking
never changes the outcome, so the greedy first-match reading is exact. -/
def readMonthNum : List Char → Option (Nat × List Char)
  | [] => none
  | [c] => if decide ('1' ≤ c) && decide (c ≤ '9') then some (digitVal c, []) else none
  | c1 :: c2 :: rest =>
    if c1 = '1' && decide ('0' ≤ c2) && decide (c2 ≤ '2') then
      some (10 + digitVal c2, rest)
    else if c1 = '0' && decide ('1' ≤ c2) && decide (c2 ≤ '9') then
      some (digitVal c2, rest)
    else if decide ('1' ≤ c1) && decide (c1 ≤ '9') then
      some (digitVal c1, c2 :: rest)
    else none

/-- Reader for the `%d` directive, regex `3[01]|[12]\d|0[1-9]|[1-9]`. -/
def readDayNum : List Char → Option (Nat × List Char)
  | [] => none
  | [c] => if decide ('1' ≤ c) && decide (c ≤ '9') then some (digitVal c, []) else none
  | c1 :: c2 :: rest =>
    if c1 = '3' && (c2 = '0' || c2 = '1') then
      some (30 + digitVal c2, rest)
    else if (c1 = '1' || c1 = '2') && isDigitC c2 then
      some (digitVal c1 * 10 + digitVal c2, rest)
    else if c1 = '0' && decide ('1' ≤ c2) && decide (c2 ≤ '9') then
      some (digitVal c2, rest)
    else if decide ('1' ≤ c1) && decide (c1 ≤ '9') then
      some (digitVal c1, c2 :: rest)
    else none

/-- Reader for the `%y` directive, regex `\d\d` (exactly two digits). -/
def read2Digits : List Char → Option (Nat × List Char)
  | c1 :: c2 :: rest =>
    if isDigitC c1 && isDigitC c2 then
      some (digitVal c1 * 10 + digitVal c2, rest)
    else none
  | _ => none

/-- Reader for the `%Y` directive, regex `\d\d\d\d` (exactly four digits). -/
def read4Digits : List Char → Option (Nat × List Char)
  | c1 :: c2 :: c3 :: c4 :: rest =>
    if isDigitC c1 && isDigitC c2 && isDigitC c3 && isDigitC c4 then
      some (((digitVal c1 * 10 + digitVal c2) * 10 + digitVal c3) * 10 + digitVal c4, rest)
    else none
  | _ => none

/-- CPython's two-digit-year pivot: `if year <= 68: year += 2000 else:
year += 1900`. -/
def mapY2 (v : Nat) : Nat := if v ≤ 68 then 2000 + v else 1900 + v

/-- Consume one literal character. -/
def expectChar (c : Char) : List Char → Option (List Char)
  | x :: rest => if x = c then some rest else none
  | [] => none

/-- Consume one or more whitespace characters: a whitespace run in a
strptime format is compiled to `\s+`, and as the token following it is
never whitespace in the formats used here, maximal munch is exact. -/
def skipWs1 : List Char → Option (List Char)
  | c :: rest => if isWsC c then some (rest.dropWhile isWsC) else none
  | [] => none

/-- Case-insensitive prefix match (strptime compiles its regex with
`IGNORECASE`); `pat` is given lowercase. Returns the remainder. -/
def ciStarts (pat : List Char) : List Char → Option (List Char) :=
  fun cs =>
    match pat, cs with
    | [], rest => some rest
    | _ :: _, [] => none
    | p :: ps, c :: rest => if c.toLower = p then ciStarts ps rest else none

/-- One alternative of the `%B`/`%b` regex: month name `pat` (lowercase)
mapped to month number `m`. -/
def tryMonth (m : Nat) (pat : List Char) (cs : List Char) : Option (Nat × List Char) :=
  match ciStarts pat cs with
  | some rest => some (m, rest)
  | none => none

/-- Reader for the `%B` directive: the full month names of the C locale,
matched case-insensitively.  No name is a prefix of another, so the
alternation order is irrelevant. -/
def readMonthFull (cs : List Char) : Option (Nat × List Char) :=
  match tryMonth 1 ('j':: 'a':: 'n':: 'u':: 'a':: 'r':: 'y'::[]) cs with
  | some r => some r
  | none =>
  match tryMonth 2 ('f':: 'e':: 'b':: 'r':: 'u':: 'a':: 'r':: 'y'::[]) cs with
  | some r => some r
  | none =>
  match tryMonth 3 ('m':: 'a':: 'r':: 'c':: 'h'::[]) cs with
  | some r => some r
  | none =>
  match tryMonth 4 ('a':: 'p':: 'r':: 'i':: 'l'::[]) cs with
  | some r => some r
  | none =>
  match tryMonth 5 ('m':: 'a':: 'y'::[]) cs with
  | some r => some r
  | none =>
  match tryMonth 6 ('j':: 'u':: 'n':: 'e'::[]) cs with
  | some r => some r
  | none =>
  match tryMonth 7 ('j':: 'u':: 'l':: 'y'::[]) cs with
  | some r => some r
  | none =>
  match tryMonth 8 ('a':: 'u':: 'g':: 'u':: 's':: 't'::[]) cs with
  | some r => some r
  | none =>
  match tryMonth 9 ('s':: 'e':: 'p':: 't':: 'e':: 'm':: 'b':: 'e':: 'r'::[]) cs with
  | some r => some r
  | none =>
  match tryMonth 10 ('o':: 'c':: 't':: 'o':: 'b':: 'e':: 'r'::[]) cs with
  | some r => some r
  | none =>
  match tryMonth 11 ('n':: 'o':: 'v':: 'e':: 'm':: 'b':: 'e':: 'r'::[]) cs with
  | some r => some r
  | none => tryMonth 12 ('d':: 'e':: 'c':: 'e':: 'm':: 'b':: 'e':: 'r'::[]) cs

/-- Reader for the `%b` directive: abbreviated month names of the C
locale. -/
def readMonthAbbr (cs : List Char) : Option (Nat × List Char) :=
  match tryMonth 1 ('j':: 'a':: 'n'::[]) cs with
  | some r => some r
  | none =>
  match tryMonth 2 ('f':: 'e':: 'b'::[]) cs with
  | some r => some r
  | none =>
  match tryMonth 3 ('m':: 'a':: 'r'::[]) cs with
  | some r => some r
  | none =>
  match tryMonth 4 ('a':: 'p':: 'r'::[]) cs with
  | some r => some r
  | none =>
  match tryMonth 5 ('m':: 'a':: 'y'::[]) cs with
  | some r => some r
  | none =>
  match tryMonth 6 ('j':: 'u':: 'n'::[]) cs with
  | some r => some r
  | none =>
  match tryMonth 7 ('j':: 'u':: 'l'::[]) cs with
  | some r => some r
  | none =>
  match tryMonth 8 ('a':: 'u':: 'g'::[]) cs with
  | some r => some r
  | none =>
  match tryMonth 9 ('s':: 'e':: 'p'::[]) cs with
  | some r => some r
  | none =>
  match tryMonth 10 ('o':: 'c':: 't'::[]) cs with
  | some r => some r
  | none =>
  match tryMonth 11 ('n':: 'o':: 'v'::[]) cs with
  | some r => some r
  | none => tryMonth 12 ('d':: 'e':: 'c'::[]) cs

/-- The strptime format strings appearing in src/generic_scrapers.py. -/
inductive DateFormat
  /-- format string slash month-day-2digit year -/
  | mdy2
  /-- format string slash month-day-4digit year -/
  | mdY4
  /-- format string dot month-day-2digit year -/
  | mdoty2
  /-- format string dot month-day-4digit year -/
  | mdotY4
  /-- format string full-month-name day, year -/
  | BdY
  /-- format string abbreviated-month-name day, year -/
  | bdY
  /-- format string year-month-day (ISO) -/
  | iso
deriving DecidableEq, Repr

/-- Parse month-separator-day-separator-year. `y2` selects a two-digit
year (`%y`, with CPython's pivot) over a four-digit one (`%Y`). -/
def parseMDY (sep : Char) (y2 : Bool) (cs : List Char) : Option (Nat × Nat × Nat × List Char) :=
  match readMonthNum cs with
  | none => none
  | some (m, cs) =>
  match expectChar sep cs with
  | none => none
  | some cs =>
  match readDayNum cs with
  | none => none
  | some (d, cs) =>
  match expectChar sep cs with
  | none => none
  | some cs =>
  match (if y2 then (read2Digits cs).map (fun p => (mapY2 p.1, p.2)) else read4Digits cs) with
  | none => none
  | some (y, cs) => some (y, m, d, cs)

/-- Parse month-name day, year (`%B %d, %Y` / `%b %d, %Y`). -/
def parseNameDY (ab : Bool) (cs : List Char) : Option (Nat × Nat × Nat × List Char) :=
  match (if ab then readMonthAbbr cs else readMonthFull cs) with
  | none => none
  | some (m, cs) =>
  match skipWs1 cs with
  | none => none
  | some cs =>
  match readDayNum cs with
  | none => none
  | some (d, cs) =>
  match expectChar ',' cs with
  | none => none
  | some cs =>
  match skipWs1 cs with
  | none => none
  | some cs =>
  match read4Digits cs with
  | none => none
  | some (y, cs) => some (y, m, d, cs)

/-- Parse `%Y-%m-%d`. -/
def parseIsoYmd (cs : List Char) : Option (Nat × Nat × Nat × List Char) :=
  match read4Digits cs with
  | none => none
  | some (y, cs) =>
  match expectChar '-' cs with
  | none => none
  | some cs =>
  match readMonthNum cs with
  | none => none
  | some (m, cs) =>
  match expectChar '-' cs with
  | none => none
  | some cs =>
  match readDayNum cs with
  | none => none
  | some (d, cs) => some (y, m, d, cs)

/-- Model of `datetime.datetime.strptime(s, f).date()` on character list
`cs`: the compiled regex must consume the whole input ("unconverted data
remains" otherwise) and the date constructor must accept the components;
any failure (a `ValueError` in Python) is `none`. -/
def parseFmtC (f : DateFormat) (cs : List Char) : Option Date :=
  match
    (match f with
     | .mdy2 => parseMDY '/' true cs
     | .mdY4 => parseMDY '/' false cs
     | .mdoty2 => parseMDY '.' true cs
     | .mdotY4 => parseMDY '.' false cs
     | .BdY => parseNameDY false cs
     | .bdY => parseNameDY true cs
     | .iso => parseIsoYmd cs)
  with
  | some (y, m, d, []) => mkDate y m d
  | _ => none

/-- `strptime` on a `String`. -/
def parseFormat (f : DateFormat) (s : String) : Option Date := parseFmtC f s.data

/-- The first-match-wins format ladder: for each format in order, try
`strptime` and stop at the first success — the model of the
`for fmt in date_formats: try/except ValueError` loops. -/
def parseDateListC (fs : List DateFormat) (cs : List Char) : Option Date :=
  match fs with
  | [] => none
  | f :: rest =>
    match parseFmtC f cs with
    | some d => some d
    | none => parseDateListC rest cs

/-- The format ladder on a `String`. -/
def parseDateList (fs : List DateFormat) (s : String) : Option Date :=
  parseDateListC fs s.data

/-- Zero-padded two-digit print (`%m`, `%d`, `%y` for values below 100). -/
def pad2c (n : Nat) : List Char := [Nat.digitChar (n / 10 % 10), Nat.digitChar (n % 10)]

/-- Capitalised full month names printed by `%B` in the C locale. -/
def monthFullChars : Nat → List Char
  | 1 => 'J':: 'a':: 'n':: 'u':: 'a':: 'r':: 'y'::[]
  | 2 => 'F':: 'e':: 'b':: 'r':: 'u':: 'a':: 'r':: 'y'::[]
  | 3 => 'M':: 'a':: 'r':: 'c':: 'h'::[]
  | 4 => 'A':: 'p':: 'r':: 'i':: 'l'::[]
  | 5 => 'M':: 'a':: 'y'::[]
  | 6 => 'J':: 'u':: 'n':: 'e'::[]
  | 7 => 'J':: 'u':: 'l':: 'y'::[]
  | 8 => 'A':: 'u':: 'g':: 'u':: 's':: 't'::[]
  | 9 => 'S':: 'e':: 'p':: 't':: 'e':: 'm':: 'b':: 'e':: 'r'::[]
  | 10 => 'O':: 'c':: 't':: 'o':: 'b':: 'e':: 'r'::[]
  | 11 => 'N':: 'o':: 'v':: 'e':: 'm':: 'b':: 'e':: 'r'::[]
  | 12 => 'D':: 'e':: 'c':: 'e':: 'm':: 'b':: 'e':: 'r'::[]
  | _ => []

/-- Abbreviated month names printed by `%b` in the C locale. -/
def monthAbbrChars : Nat → List Char
  | 1 => 'J':: 'a':: 'n'::[]
  | 2 => 'F':: 'e':: 'b'::[]
  | 3 => 'M':: 'a':: 'r'::[]
  | 4 => 'A':: 'p':: 'r'::[]
  | 5 => 'M':: 'a':: 'y'::[]
  | 6 => 'J':: 'u':: 'n'::[]
  | 7 => 'J':: 'u':: 'l'::[]
  | 8 => 'A':: 'u':: 'g'::[]
  | 9 => 'S':: 'e':: 'p'::[]
  | 10 => 'O':: 'c':: 't'::[]
  | 11 => 'N':: 'o':: 'v'::[]
  | 12 => 'D':: 'e':: 'c'::[]
  | _ => []

/-- Characters printed by `date.strftime(f)` for a valid date (glibc C
locale: `%m`, `%d`, `%y` zero-padded to two digits, `%Y` the plain decimal
of the year, `%B`/`%b` the capitalised month name). -/
def fmtChars : DateFormat → Date → List Char
  | .mdy2, d => pad2c d.month ++ '/' :: pad2c d.day ++ '/' :: pad2c (d.year % 100)
  | .mdY4, d => pad2c d.month ++ '/' :: pad2c d.day ++ '/' :: natChars d.year
  | .mdoty2, d => pad2c d.month ++ '.' :: pad2c d.day ++ '.' :: pad2c (d.year % 100)
  | .mdotY4, d => pad2c d.month ++ '.' :: pad2c d.day ++ '.' :: natChars d.year
  | .BdY, d => monthFullChars d.month ++ ' ' :: pad2c d.day ++ ',' :: ' ' :: natChars d.year
  | .bdY, d => monthAbbrChars d.month ++ ' ' :: pad2c d.day ++ ',' :: ' ' :: natChars d.year
  | .iso, d => natChars d.year ++ '-' :: pad2c d.month ++ '-' :: pad2c d.day

/-- `date.strftime(f)` as a `String`. -/
def strftimeD (f : DateFormat) (d : Date) : String := String.mk (fmtChars f d)

/-- Split `cs` at the first occurrence of `c`: the part before, and
`some` part after (or `none` when `c` does not occur). -/
def splitFirst (c : Char) : List Char → List Char × Option (List Char)
  | [] => ([], none)
  | x :: xs =>
    if x = c then ([], some xs)
    else
      let r := splitFirst c xs
      (x :: r.1, r.2)

/-- Split `cs` on every occurrence of `c` (model of `str.split('/')`). -/
def splitAllOn (c : Char) : List Char → List (List Char)
  | [] => [[]]
  | x :: xs =>
    let r := splitAllOn c xs
    if x = c then [] :: r
    else (x :: r.headD []) :: r.tail

/-- Characters allowed in a URL scheme by `urllib.parse`. -/
def isSchemeChar (c : Char) : Bool := c.isAlpha || isDigitC c || c = '+' || c = '-' || c = '.'

/-- The pieces returned by `urllib.parse.urlparse` that this code reads
(the `params` component never arises for the URLs involved and is left
out of the model). -/
structure UrlParts where
  scheme : String
  netloc : String
  path : String
  query : String
  fragment : String
deriving DecidableEq, Repr

/-- Model of `urllib.parse.urlparse(url, defScheme)`: the fragment is cut
at the first `#`; a leading `letter(letter|digit|+|-|.)*:` is the scheme
(lowercased), else the scheme is `defScheme`; `//` then introduces the
netloc, running to the next `/` or `?`; the query is cut at the first
`?`. -/
def urlparseM (url : String) (defScheme : String) : UrlParts :=
  let (beforeFrag, fragO) := splitFirst '#' url.data
  let frag := fragO.getD []
  let (schemeL, restL) :=
    match splitFirst ':' beforeFrag with
    | (pre, some post) =>
      if !pre.isEmpty && (pre.headD ' ').isAlpha && pre.all isSchemeChar then
        (pre.map Char.toLower, post)
      else (defScheme.data, beforeFrag)
    | (_, none) => (defScheme.data, beforeFrag)
  let (netl, rest2) :=
    match restL with
    | '/' :: '/' :: r =>
      let n := r.takeWhile (fun c => !(c = '/' || c = '?'))
      (n, r.drop n.length)
    | r => ([], r)
  let (pathL, queryO) := splitFirst '?' rest2
  ⟨String.mk schemeL, String.mk netl, String.mk pathL,
   String.mk (queryO.getD []), String.mk frag⟩

/-- Model of `urlparse(url).netloc` as used for the `domain` field. -/
def netlocOf (url : String) : String := (urlparseM url "").netloc

/-- Model of `urlparse(url).path` as used by `Utils.remove_generic_urls`. -/
def pathOf (url : String) : String := (urlparseM url "").path

/-- `uses_relative` of `urllib.parse`. -/
def usesRelative : List String :=
  ["", "ftp", "http", "gopher", "nntp", "imap", "wais", "file", "https",
   "shttp", "mms", "prospero", "rtsp", "rtspu", "sftp", "svn", "svn+ssh",
   "ws", "wss"]

/-- `uses_netloc` of `urllib.parse`. -/
def usesNetloc : List String :=
  ["", "ftp", "http", "gopher", "nntp", "telnet", "imap", "wais", "file",
   "mms", "https", "shttp", "snews", "prospero", "rtsp", "rtspu", "rsync",
   "svn", "svn+ssh", "sftp", "nfs", "git", "git+ssh", "ws", "wss",
   "itms-services"]

/-- Model of `urllib.parse.urlunsplit` (no `params`). -/
def urlunparseM (p : UrlParts) : String :=
  let u0 := p.path.data
  let u1 :=
    if p.netloc ≠ "" ∨ startsWithL ('/':: '/'::[]) u0 then
      '/' :: '/' :: p.netloc.data ++
        (if !u0.isEmpty && !(u0.headD ' ' = '/') then '/' :: u0 else u0)
    else u0
  let u2 := if p.scheme ≠ "" then p.scheme.data ++ ':' :: u1 else u1
  let u3 := if p.query ≠ "" then u2 ++ '?' :: p.query.data else u2
  let u4 := if p.fragment ≠ "" then u3 ++ '#' :: p.fragment.data else u3
  String.mk u4

/-- `segments[1:-1] = filter(None, segments[1:-1])` of `urljoin`: drop the
empty segments strictly between the first and the last. -/
def filterMiddleSegs : List (List Char) → List (List Char)
  | [] => []
  | [a] => [a]
  | a :: b => a :: (b.dropLast.filter (fun s => !s.isEmpty) ++ b.drop (b.length - 1))

/-- The dot-segment resolution loop of `urljoin`: `..` pops, `.` is
dropped, and a trailing `.`/`..` leaves a trailing empty segment. -/
def resolveSegs (segs : List (List Char)) : List (List Char) :=
  let r := segs.foldl
    (fun acc seg =>
      if seg = ('.':: '.'::[]) then acc.dropLast
      else if seg = ('.'::[]) then acc
      else acc ++ [seg])
    []
  if segs.getLastD [] = ('.'::[]) ∨ segs.getLastD [] = ('.':: '.'::[]) then r ++ [[]]
  else r

/-- Model of `urllib.parse.urljoin(base, url)` (CPython's algorithm, with
the `params` component absent since no URL here carries one). -/
def urljoinM (base url : String) : String :=
  if base = "" then url
  else if url = "" then base
  else
    let b := urlparseM base ""
    let l := urlparseM url b.scheme
    if !(l.scheme = b.scheme && usesRelative.contains l.scheme) then url
    else
      let inNetloc := usesNetloc.contains l.scheme
      if inNetloc && !(l.netloc = "") then urlunparseM l
      else
        let netloc := if inNetloc then b.netloc else l.netloc
        if l.path = "" then
          let q := if l.query = "" then b.query else l.query
          urlunparseM ⟨l.scheme, netloc, b.path, q, l.fragment⟩
        else
          let baseParts0 := splitAllOn '/' b.path.data
          let baseParts :=
            if !(baseParts0.getLastD []).isEmpty then baseParts0.dropLast else baseParts0
          let segments :=
            if startsWithL ('/'::[]) l.path.data then splitAllOn '/' l.path.data
            else filterMiddleSegs (baseParts ++ splitAllOn '/' l.path.data)
          let joined := List.intercalate ('/'::[]) (resolveSegs segments)
          let path := if joined.isEmpty then ('/'::[]) else joined
          urlunparseM ⟨l.scheme, netloc, String.mk path, l.query, l.fragment⟩

/-- Model of `Utils.absolute_link(url, link)`: a link starting with the
literal characters `http` is returned unchanged, anything else goes
through `urljoin`. -/
def absolute_link (url link : String) : String :=
  if startsWithL ('h':: 't':: 't':: 'p'::[]) link.data then link else urljoinM url link

/-- One output record: the five fields every scraper emits. -/
structure ScrapedRecord where
  source : String
  url : String
  title : String
  date : Option Date
  domain : String
deriving DecidableEq, Repr

/-- Model of `Utils.remove_generic_urls(results)`: keep the records whose
URL path is not one of the generic listing paths `/news/`, `/news`. -/
def remove_generic_urls (results : List ScrapedRecord) : List ScrapedRecord :=
  results.filter (fun r => !(pathOf r.url = "/news/" || pathOf r.url = "/news"))

/-- An anchor element: its `href` attribute and its text. -/
structure LinkEl where
  href : String
  text : String
deriving DecidableEq, Repr

/-- A text-bearing element (a date cell, a span, a title div). -/
structure TextEl where
  text : String
deriving DecidableEq, Repr

/-- A `time` element: text and optional machine-readable attribute. -/
structure TimeEl where
  text : String
  datetimeAttr : Option String
deriving DecidableEq, Repr

/-- An element whose tag name the code inspects (`p` or `time` in
`article_block_h2_p_date`), with text and optional `datetime`
attribute. -/
structure NamedEl where
  name : String
  text : String
  datetimeAttr : Option String
deriving DecidableEq, Repr

/-- Python truthiness choice `a or b` on two optional elements (an element
is always truthy). -/
def firstEl {α : Type} (a b : Option α) : Option α :=
  match a with
  | some x => some x
  | none => b

/-- A row of `doc.select("table tbody tr")` as consumed by
`table_recordlist_date`: the row's first `a` and its first
`td.recordListDate`, each possibly absent. -/
structure TableRow where
  a : Option LinkEl
  tdRecordListDate : Option TextEl
deriving DecidableEq, Repr

/-- The ordered format list of `table_recordlist_date`. -/
def tableRecordlistFormats : List DateFormat := [.mdy2, .mdY4, .mdoty2, .mdotY4, .BdY]

/-- The page-URL construction shared by `table_recordlist_date`,
`table_time` and `element_post_media`: append `?page=N`, or `&page=N` when
the URL already has a query string. -/
def pageQueryUrl (url : String) (page : Nat) : String :=
  if url.data.contains '?' then url ++ "&page=" ++ natStr page
  else url ++ "?page=" ++ natStr page

/-- The body of the `for row in rows` loop of `table_recordlist_date`:
skip the row unless both the link and the date cell are present, parse the
date through the format ladder (failures leave it absent), resolve the
href against `https://{domain}` unless it starts with `http`, and emit the
record. -/
def tableRecordlistRow (url domain : String) (row : TableRow) : Option ScrapedRecord :=
  match row.a, row.tdRecordListDate with
  | some link, some dateCell =>
    let date := parseDateListC tableRecordlistFormats (trimL dateCell.text.data)
    let fullUrl :=
      if startsWithL ('h':: 't':: 't':: 'p'::[]) link.href.data then link.href
      else "https://" ++ domain ++ link.href
    some { source := url, url := fullUrl, title := String.mk (trimL link.text.data),
           date := date, domain := domain }
  | _, _ => none

/-- Model of `GenericScrapers.table_recordlist_date(urls, page)`; `fetch`
is `Scraper.open_html` (a parsed document — here the selected row list —
or `None`). -/
def table_recordlist_date (fetch : String → Option (List TableRow))
    (urls : List String) (page : Nat) : List ScrapedRecord :=
  urls.flatMap (fun url =>
    let domain := netlocOf url
    match fetch (pageQueryUrl url page) with
    | none => []
    | some rows => rows.filterMap (tableRecordlistRow url domain))

/-- An item of the Jet Engine listing grid as consumed by
`jet_listing_elementor`: its `h3 a` link and the three date-element
selector results. -/
structure JetItem where
  h3a : Option LinkEl
  spanIconListText : Option TextEl
  liSpanIconListText : Option TextEl
  elementorPostDate : Option TextEl
deriving DecidableEq, Repr

/-- A document as consumed by `jet_listing_elementor`: the items matching
`.jet-listing-grid__item`, and those matching `.elementor-widget-wrap`
used as fallback when the first list is empty. -/
structure JetDoc where
  jetItems : List JetItem
  widgetWrapItems : List JetItem
deriving DecidableEq, Repr

/-- The ordered format list of `jet_listing_elementor`. -/
def jetFormats : List DateFormat := [.BdY, .mdY4, .mdy2]

/-- The loop body of `jet_listing_elementor`: skip the item when the
`h3 a` link is missing; otherwise the date element is the first of three
selector fallbacks, a missing or unparseable date leaves the date absent,
and the record is emitted with the raw href. -/
def jetRow (url domain : String) (row : JetItem) : Option ScrapedRecord :=
  match row.h3a with
  | none => none
  | some link =>
    let dateElem := firstEl row.spanIconListText (firstEl row.liSpanIconListText row.elementorPostDate)
    let date :=
      match dateElem with
      | none => none
      | some el => parseDateListC jetFormats (trimL el.text.data)
    some { source := url, url := link.href, title := String.mk (trimL link.text.data),
           date := date, domain := domain }

/-- Replace every match of a point in `cs` recognised by `matchAt`
(returning the remainder after the matched span) with `repl`; fuel-driven
model of `re.sub` for the two patterns used by the pagination code. -/
def subAllFuel (matchAt : List Char → Option (List Char)) (repl : List Char) :
    Nat → List Char → List Char
  | 0, cs => cs
  | _ + 1, [] => []
  | fuel + 1, c :: cs =>
    match matchAt (c :: cs) with
    | some rest => repl ++ subAllFuel matchAt repl fuel rest
    | none => c :: subAllFuel matchAt repl fuel cs

/-- Case-sensitive exact prefix match returning the remainder. -/
def matchExact (pat : List Char) : List Char → Option (List Char) :=
  fun cs =>
    match pat, cs with
    | [], rest => some rest
    | _ :: _, [] => none
    | p :: ps, c :: rest => if c = p then matchExact ps rest else none

/-- Match the regex `/pagenum/\d+/` at the head of `cs`, returning the
remainder after the final slash. -/
def matchPagenumAt (cs : List Char) : Option (List Char) :=
  match matchExact ('/':: 'p':: 'a':: 'g':: 'e':: 'n':: 'u':: 'm':: '/'::[]) cs with
  | none => none
  | some rest =>
    let ds := rest.takeWhile isDigitC
    if ds.isEmpty then none
    else
      match rest.drop ds.length with
      | '/' :: tail => some tail
      | _ => none

/-- Model of `url.rstrip('/')`. -/
def rstripSlash (cs : List Char) : List Char :=
  (cs.reverse.dropWhile (fun c => c = '/')).reverse

/-- The pagination-URL construction of `jet_listing_elementor`: append
`&pagenum=N` after a `?jsf=` query, replace an existing `/pagenum/\d+/`
path segment, append `/pagenum/N/` after `/jsf/`, or fall back to adding
the `jsf=jet-engine:press-list&pagenum=N` query. -/
def jetSourceUrl (url : String) (page : Nat) : String :=
  let u := url.data
  if hasSub ('?':: 'j':: 's':: 'f':: '='::[]) u then
    url ++ "&pagenum=" ++ natStr page
  else if hasSub ('/':: 'p':: 'a':: 'g':: 'e':: 'n':: 'u':: 'm':: '/'::[]) u then
    if hasSub (('/':: 'p':: 'a':: 'g':: 'e':: 'n':: 'u':: 'm':: '/'::[]) ++ natChars page ++ ('/'::[])) u then
      url
    else
      let subbed := subAllFuel matchPagenumAt
        (('/':: 'p':: 'a':: 'g':: 'e':: 'n':: 'u':: 'm':: '/'::[]) ++ natChars page ++ ('/'::[]))
        u.length u
      if !hasSub ('/':: 'p':: 'a':: 'g':: 'e':: 'n':: 'u':: 'm':: '/'::[]) subbed then
        String.mk (rstripSlash u) ++ "/pagenum/" ++ natStr page ++ "/"
      else String.mk subbed
  else if hasSub ('/':: 'j':: 's':: 'f':: '/'::[]) u then
    url ++ "/pagenum/" ++ natStr page ++ "/"
  else
    url ++ (if u.contains '?' then "&" else "?") ++ "jsf=jet-engine:press-list&pagenum=" ++ natStr page

/-- Model of `GenericScrapers.jet_listing_elementor(urls, page)`. -/
def jet_listing_elementor (fetch : String → Option JetDoc)
    (urls : List String) (page : Nat) : List ScrapedRecord :=
  urls.flatMap (fun url =>
    let domain := netlocOf url
    match fetch (jetSourceUrl url page) with
    | none => []
    | some doc =>
      let items := if doc.jetItems.isEmpty then doc.widgetWrapItems else doc.jetItems
      items.filterMap (jetRow url domain))

/-- A `div.ArticleBlock` container as consumed by
`article_block_h2_p_date`: the `h2 a` and `h3 a` links, and the first `p`
and first `time` elements. -/
structure ArticleBlockRow where
  h2a : Option LinkEl
  h3a : Option LinkEl
  p : Option NamedEl
  time : Option NamedEl
deriving DecidableEq, Repr

/-- The ordered format list of `article_block_h2_p_date`. -/
def articleFormats : List DateFormat := [.mdy2, .mdY4, .BdY, .bdY, .iso]

/-- Replace every `.` with `/` — model of `date_text.replace(".", "/")`. -/
def replaceDots (cs : List Char) : List Char :=
  cs.map (fun c => if c = '.' then '/' else c)

/-- The date ladder of `article_block_h2_p_date`: for each format, first
try the dot-normalised text, then the original text; first success
wins. -/
def articleTry : List DateFormat → List Char → List Char → Option Date
  | [], _, _ => none
  | f :: fs, norm, orig =>
    match parseFmtC f norm with
    | some d => some d
    | none =>
      match parseFmtC f orig with
      | some d => some d
      | none => articleTry fs norm orig

/-- The date resolution of `article_block_h2_p_date` on the chosen date
text. -/
def parseArticleDate (s : String) : Option Date :=
  articleTry articleFormats (replaceDots s.data) s.data

/-- Match the regex `PageNum_rs=\d+` at the head of `cs`. -/
def matchPageNumRsAt (cs : List Char) : Option (List Char) :=
  match matchExact ('P':: 'a':: 'g':: 'e':: 'N':: 'u':: 'm':: '_':: 'r':: 's':: '='::[]) cs with
  | none => none
  | some rest =>
    let ds := rest.takeWhile isDigitC
    if ds.isEmpty then none else some (rest.drop ds.length)

/-- The pagination-URL construction of `article_block_h2_p_date`: keep the
URL when it already contains `PageNum_rs={page}` as a substring, replace
an existing `PageNum_rs=\d+` otherwise, else append the marker with `?` or
`&`. -/
def articleSourceUrl (url : String) (page : Nat) : String :=
  let u := url.data
  if hasSub ('P':: 'a':: 'g':: 'e':: 'N':: 'u':: 'm':: '_':: 'r':: 's'::[]) u then
    if !hasSub (('P':: 'a':: 'g':: 'e':: 'N':: 'u':: 'm':: '_':: 'r':: 's':: '='::[]) ++ natChars page) u then
      String.mk (subAllFuel matchPageNumRsAt
        (('P':: 'a':: 'g':: 'e':: 'N':: 'u':: 'm':: '_':: 'r':: 's':: '='::[]) ++ natChars page)
        u.length u)
    else url
  else if u.contains '?' then url ++ "&PageNum_rs=" ++ natStr page
  else url ++ "?PageNum_rs=" ++ natStr page

/-- The loop body of `article_block_h2_p_date`: the link is `h2 a` with
`h3 a` as fallback and its absence skips the block; the date element is
the first `p`, else the first `time`; when that element is a `time` with a
non-empty `datetime` attribute the attribute replaces the stripped text;
the dual-try format ladder runs over it and failure leaves the date
absent. -/
def articleRow (url domain : String) (row : ArticleBlockRow) : Option ScrapedRecord :=
  match firstEl row.h2a row.h3a with
  | none => none
  | some link =>
    let date :=
      match firstEl row.p row.time with
      | none => none
      | some el =>
        let dateText :=
          match el.datetimeAttr with
          | some dt => if el.name = "time" && !dt.data.isEmpty then dt else String.mk (trimL el.text.data)
          | none => String.mk (trimL el.text.data)
        parseArticleDate dateText
    some { source := url, url := link.href, title := String.mk (trimL link.text.data),
           date := date, domain := domain }

/-- Model of `GenericScrapers.article_block_h2_p_date(urls, page)`. -/
def article_block_h2_p_date (fetch : String → Option (List ArticleBlockRow))
    (urls : List String) (page : Nat) : List ScrapedRecord :=
  urls.flatMap (fun url =>
    let domain := netlocOf url
    match fetch (articleSourceUrl url page) with
    | none => []
    | some blocks => blocks.filterMap (articleRow url domain))

/-- A row of `doc.select("table tr")` as consumed by `table_time`: its
first `td a`, its first `a`, and its first `time` element. -/
structure TableTimeRow where
  tda : Option LinkEl
  a : Option LinkEl
  time : Option TimeEl
deriving DecidableEq, Repr

/-- The ordered format list of `table_time`. -/
def tableTimeFormats : List DateFormat := [.mdy2, .mdY4, .iso, .BdY]

/-- The loop body of `table_time`: the link is `td a` else the first `a`,
its absence skips the row; the date text is the `time` element's
`datetime` attribute when truthy, else its stripped text; the href is
resolved against `https://{domain}` unless it starts with `http`. -/
def tableTimeRow (url domain : String) (row : TableTimeRow) : Option ScrapedRecord :=
  match firstEl row.tda row.a with
  | none => none
  | some link =>
    let date :=
      match row.time with
      | none => none
      | some t =>
        let dateText :=
          match t.datetimeAttr with
          | some dt => if dt.data.isEmpty then String.mk (trimL t.text.data) else dt
          | none => String.mk (trimL t.text.data)
        parseDateListC tableTimeFormats dateText.data
    let fullUrl :=
      if startsWithL ('h':: 't':: 't':: 'p'::[]) link.href.data then link.href
      else "https://" ++ domain ++ link.href
    some { source := url, url := fullUrl, title := String.mk (trimL link.text.data),
           date := date, domain := domain }

/-- Model of `GenericScrapers.table_time(urls, page)`.  The selected rows
are consumed from the second on — `rows = doc.select("table tr")[1:]`
discards the first row of the table as a header. -/
def table_time (fetch : String → Option (List TableTimeRow))
    (urls : List String) (page : Nat) : List ScrapedRecord :=
  urls.flatMap (fun url =>
    let domain := netlocOf url
    match fetch (pageQueryUrl url page) with
    | none => []
    | some rows => (rows.drop 1).filterMap (tableTimeRow url domain))

/-- A `.element` container as consumed by `element_post_media`: its first
`a`, the two title-element selector results, and the two date-element
selector results. -/
structure ElementRow where
  a : Option LinkEl
  postMediaListTitle : Option TextEl
  elementTitle : Option TextEl
  postMediaListDate : Option TextEl
  elementDatetime : Option TextEl
deriving DecidableEq, Repr

/-- The ordered format list of `element_post_media`. -/
def elementFormats : List DateFormat := [.BdY, .mdY4, .mdy2, .mdotY4]

/-- The loop body of `element_post_media`: the container is skipped unless
the link, a title element and a date element are all present; date-parse
failure still leaves the record emitted with an absent date. -/
def elementRow (url domain : String) (row : ElementRow) : Option ScrapedRecord :=
  match row.a, firstEl row.postMediaListTitle row.elementTitle,
        firstEl row.postMediaListDate row.elementDatetime with
  | some link, some titleEl, some dateEl =>
    some { source := url, url := link.href,
           title := String.mk (trimL titleEl.text.data),
           date := parseDateListC elementFormats (trimL dateEl.text.data),
           domain := domain }
  | _, _, _ => none

/-- Model of `GenericScrapers.element_post_media(urls, page)`. -/
def element_post_media (fetch : String → Option (List ElementRow))
    (urls : List String) (page : Nat) : List ScrapedRecord :=
  urls.flatMap (fun url =>
    let domain := netlocOf url
    match fetch (pageQueryUrl url page) with
    | none => []
    | some elements => elements.filterMap (elementRow url domain))

/-- The legislator fields read by `scrape_with_known_scrapers`. -/
structure LegInfo where
  last_name : String
  first_name : String
deriving DecidableEq, Repr

/-- The scraper functions referenced by the `scraper_map` dictionary of
`fetch_legislators.scrape_with_known_scrapers`. -/
inductive ScraperId
  | crapo | shaheen | timscott | angusking | bera | meeks | steube
  | barragan | castor | marshall | hawley | barrasso | sykes
deriving DecidableEq, Repr

/-- Model of Python `str.lower()` on the ASCII names involved. -/
def lowerL (s : String) : List Char := s.data.map Char.toLower

/-- The `scraper_map` dictionary: last names mapped to scraper functions,
where the `scott` and `king` entries are `None` unless the first name
matches (`Scraper.timscott if ... == 'tim' else None`). -/
def scraper_map (info : LegInfo) : List (String × Option ScraperId) :=
  [("crapo", some .crapo), ("shaheen", some .shaheen),
   ("scott", if lowerL info.first_name = ('t':: 'i':: 'm'::[]) then some .timscott else none),
   ("king", if lowerL info.first_name = ('a':: 'n':: 'g':: 'u':: 's'::[]) then some .angusking else none),
   ("bera", some .bera), ("meeks", some .meeks), ("steube", some .steube),
   ("barragan", some .barragan), ("castor", some .castor),
   ("marshall", some .marshall), ("hawley", some .hawley),
   ("barrasso", some .barrasso), ("sykes", some .sykes)]

/-- `dict.get(k)`: the value at the first matching key, `None` when the
key is absent. -/
def mapGet (m : List (String × Option ScraperId)) (k : List Char) : Option ScraperId :=
  match m with
  | [] => none
  | (key, v) :: rest => if key.data = k then v else mapGet rest k

/-- Model of `fetch_legislators.scrape_with_known_scrapers(legislator_info)`.
`run` models invoking a scraper function (the only network activity in
the function): `none` is an exception, caught and turned into `[]`.  A
missing key and a `None` entry are both falsy, so no scraper runs and the
function returns `[]`. -/
def scrape_with_known_scrapers (run : ScraperId → Option (List ScrapedRecord))
    (info : LegInfo) : List ScrapedRecord :=
  match mapGet (scraper_map info) (lowerL info.last_name) with
  | none => []
  | some f =>
    match run f with
    | some rs => rs
    | none => []

/-- The `page=` marker characters. -/
def pageMarker : List Char := 'p':: 'a':: 'g':: 'e':: '='::[]

/-- C2 scenario: first table row — date cell `01/15/24` and a link. -/
def c2row1 : TableRow :=
  { a := some { href := "/newsroom/press-releases/release-one", text := "Release One" },
    tdRecordListDate := some { text := "01/15/24" } }

/-- C2 scenario: second table row — date cell `01.15.24` and a link. -/
def c2row2 : TableRow :=
  { a := some { href := "https://www.example.senate.gov/release-two", text := "Release Two" },
    tdRecordListDate := some { text := "01.15.24" } }

/-- C2 scenario: third table row — neither link nor date cell. -/
def c2row3 : TableRow := { a := none, tdRecordListDate := none }

/-- C2 scenario: the listing URL. -/
def c2url : String := "https://www.example.senate.gov/public/index.cfm/press-releases"

/-- C2 scenario: the fetched document, served only at page 1 of the
listing. -/
def c2fetch : String → Option (List TableRow) :=
  fun s => if s = c2url ++ "?page=1" then some [c2row1, c2row2, c2row3] else none

/-- C1 counterexample row: a link is present but the date cell is
absent. -/
def c1row : TableRow :=
  { a := some { href := "/a-release", text := "A Release" }, tdRecordListDate := none }

/-- C1 counterexample fetch: one row with a link and no date cell. -/
def c1fetch : String → Option (List TableRow) := fun _ => some [c1row]

/-- C5 counterexample row: the link's href resolves to the bare `/news`
path. -/
def c5row : TableRow :=
  { a := some { href := "/news", text := "News" },
    tdRecordListDate := some { text := "01/15/24" } }

/-- C5 counterexample fetch. -/
def c5fetch : String → Option (List TableRow) := fun _ => some [c5row]

/-- C9 witness row: a first table row holding a valid link and date. -/
def c9row : TableTimeRow :=
  { tda := some { href := "/press/1", text := "First" },
    a := some { href := "/press/1", text := "First" },
    time := some { text := "January 15, 2024", datetimeAttr := some "2024-01-15" } }

/-- C9 witness fetch: the document's table consists of that single row. -/
def c9fetch : String → Option (List TableTimeRow) :=
  fun s => if s = "https://barr.house.gov/media-center/press-releases?page=1" then some [c9row] else none

theorem data_append (s t : String) : (s ++ t).data = s.data ++ t.data := by
  cases s
  cases t
  rfl

theorem tableRecordlistRow_isSome (u dm : String) (row : TableRow) :
    (tableRecordlistRow u dm row).isSome = (row.a.isSome && row.tdRecordListDate.isSome) := by
  obtain ⟨a, td⟩ := row
  cases a <;> cases td <;> simp [tableRecordlistRow]

theorem jetRow_isSome (u dm : String) (row : JetItem) :
    (jetRow u dm row).isSome = row.h3a.isSome := by
  obtain ⟨l, _, _, _⟩ := row
  cases l <;> simp [jetRow]

theorem articleRow_isSome (u dm : String) (row : ArticleBlockRow) :
    (articleRow u dm row).isSome = (firstEl row.h2a row.h3a).isSome := by
  cases h : firstEl row.h2a row.h3a <;> simp [articleRow, h]

theorem tableTimeRow_isSome (u dm : String) (row : TableTimeRow) :
    (tableTimeRow u dm row).isSome = (firstEl row.tda row.a).isSome := by
  cases h : firstEl row.tda row.a <;> simp [tableTimeRow, h]

theorem elementRow_isSome (u dm : String) (row : ElementRow) :
    (elementRow u dm row).isSome =
      (row.a.isSome && (firstEl row.postMediaListTitle row.elementTitle).isSome &&
        (firstEl row.postMediaListDate row.elementDatetime).isSome) := by
  obtain ⟨a, t1, t2, d1, d2⟩ := row
  cases a <;> cases h1 : firstEl t1 t2 <;> cases h2 : firstEl d1 d2 <;>
    simp [elementRow, h1, h2]

/-- C1.  Counterexample to the claim that a pattern extractor skips a
container only when no link can be found, and that a missing date element
still yields a record with an absent date: in `table_recordlist_date` a
row with a link but no `td.recordListDate` cell is skipped entirely — the
extractor returns no record at all for the fetched document consisting of
exactly that row. -/
theorem c1_counterexample :
    c1row.a.isSome = true ∧ c1row.tdRecordListDate = none ∧
      table_recordlist_date c1fetch ["https://www.a.gov/press"] 1 = [] := by
  refine ⟨rfl, rfl, ?_⟩
  rfl

/-- C1 (amended).  Per-family skip conditions: `table_recordlist_date`
emits a record iff the row has both a link and a date cell (a present but
unparseable date cell still yields a record with an absent date);
`jet_listing_elementor` emits iff the `h3 a` link exists, with an absent
date when the date element is missing; `article_block_h2_p_date` and
`table_time` emit iff their link fallback chain succeeds; and
`element_post_media` emits iff link, title element and date element are
all present. -/
theorem c1_amended_skip_conditions :
    (∀ u dm row, (tableRecordlistRow u dm row).isSome =
        (row.a.isSome && row.tdRecordListDate.isSome)) ∧
    (∀ u dm row link cell, row.a = some link → row.tdRecordListDate = some cell →
        parseDateListC tableRecordlistFormats (trimL cell.text.data) = none →
        ∃ r, tableRecordlistRow u dm row = some r ∧ r.date = none) ∧
    (∀ u dm row, (jetRow u dm row).isSome = row.h3a.isSome) ∧
    (∀ u dm row link, row.h3a = some link →
        firstEl row.spanIconListText (firstEl row.liSpanIconListText row.elementorPostDate) = none →
        ∃ r, jetRow u dm row = some r ∧ r.date = none) ∧
    (∀ u dm row, (articleRow u dm row).isSome = (firstEl row.h2a row.h3a).isSome) ∧
    (∀ u dm row, (tableTimeRow u dm row).isSome = (firstEl row.tda row.a).isSome) ∧
    (∀ u dm row, (elementRow u dm row).isSome =
        (row.a.isSome && (firstEl row.postMediaListTitle row.elementTitle).isSome &&
          (firstEl row.postMediaListDate row.elementDatetime).isSome)) := by
  refine ⟨tableRecordlistRow_isSome, ?_, jetRow_isSome, ?_, articleRow_isSome,
    tableTimeRow_isSome, elementRow_isSome⟩
  · intro u dm row link cell ha htd hp
    obtain ⟨a, td⟩ := row
    cases ha
    cases htd
    exact ⟨_, rfl, by simpa [tableRecordlistRow] using hp⟩
  · intro u dm row link hl hd
    obtain ⟨l, s1, s2, s3⟩ := row
    cases hl
    simp only at hd
    refine ⟨_, rfl, ?_⟩
    simp [jetRow, hd]

/-- C1 witness: a concrete `table_recordlist_date` row whose date cell is
present but holds no recognised date is still emitted, with an absent
date. -/
theorem c1_amended_witness :
    ∃ r, tableRecordlistRow "https://www.a.gov/press" "www.a.gov"
        { a := some { href := "/x", text := "X" }, tdRecordListDate := some { text := "tomorrow" } } =
        some r ∧ r.date = none :=
  c1_amended_skip_conditions.2.1 "https://www.a.gov/press" "www.a.gov"
    { a := some { href := "/x", text := "X" }, tdRecordListDate := some { text := "tomorrow" } }
    { href := "/x", text := "X" } { text := "tomorrow" } rfl rfl (by rfl)

/-- C2.  The literal end-to-end scenario: a fetched document with three
table body rows — two holding a link and date cells `01/15/24` and
`01.15.24`, one holding neither — makes `table_recordlist_date` return
exactly the two records, both dated 2024-01-15, and nothing for the third
row. -/
theorem c2_three_row_scenario :
    table_recordlist_date c2fetch [c2url] 1 =
      [{ source := c2url,
         url := "https://www.example.senate.gov/newsroom/press-releases/release-one",
         title := "Release One", date := some ⟨2024, 1, 15⟩,
         domain := "www.example.senate.gov" },
       { source := c2url, url := "https://www.example.senate.gov/release-two",
         title := "Release Two", date := some ⟨2024, 1, 15⟩,
         domain := "www.example.senate.gov" }] ∧
    (table_recordlist_date c2fetch [c2url] 1).length = 2 ∧
    ∀ r ∈ table_recordlist_date c2fetch [c2url] 1, r.date = some ⟨2024, 1, 15⟩ := by
  exact ⟨by rfl, by rfl, by decide⟩

/-- C5.  Counterexample to the claim that no record with a generic listing
path reaches final output for every pattern family: the
`table_recordlist_date` family returns its records without running
`Utils.remove_generic_urls`, so a row linking to the bare `/news` path is
emitted as a final record. -/
theorem c5_counterexample :
    table_recordlist_date c5fetch ["https://www.a.gov/press"] 1 =
      [{ source := "https://www.a.gov/press", url := "https://www.a.gov/news",
         title := "News", date := some ⟨2024, 1, 15⟩, domain := "www.a.gov" }] ∧
    pathOf "https://www.a.gov/news" = "/news" := by
  exact ⟨by rfl, by rfl⟩

/-- C5 (amended).  The generic-path filter holds exactly where
`Utils.remove_generic_urls` is applied: every record it returns has a URL
path different from the configured generic paths `/news/` and `/news`.
The `GenericScrapers` pattern families return their records without this
filter, so a generic-path record can appear in their output (see the
counterexample). -/
theorem c5_filter_amended :
    ∀ (results : List ScrapedRecord) r, r ∈ remove_generic_urls results →
      ¬(pathOf r.url = "/news/" ∨ pathOf r.url = "/news") := by
  intro results r hr
  unfold remove_generic_urls at hr
  rw [List.mem_filter] at hr
  simpa using hr.2

/-- C5 witness: a concrete record surviving the filter has a non-generic
path. -/
theorem c5_filter_witness :
    ¬(pathOf (ScrapedRecord.url
        { source := "s", url := "https://www.a.gov/press/1", title := "t",
          date := none, domain := "www.a.gov" }) = "/news/" ∨
      pathOf (ScrapedRecord.url
        { source := "s", url := "https://www.a.gov/press/1", title := "t",
          date := none, domain := "www.a.gov" }) = "/news") :=
  c5_filter_amended
    [{ source := "s", url := "https://www.a.gov/press/1", title := "t",
       date := none, domain := "www.a.gov" }]
    { source := "s", url := "https://www.a.gov/press/1", title := "t",
      date := none, domain := "www.a.gov" }
    (by decide)

/-- C7.  A failed page fetch (`open_html` returning `None` — timeout,
transport error, or non-success HTTP status) makes every extractor family
return the empty sequence for that page, and is indistinguishable from a
successfully fetched document containing zero containers. -/
theorem c7_fetch_failure :
    (∀ fetch url page, fetch (pageQueryUrl url page) = none →
        table_recordlist_date fetch [url] page = [] ∧
        table_recordlist_date fetch [url] page =
          table_recordlist_date (fun _ => some []) [url] page) ∧
    (∀ fetch url page, fetch (jetSourceUrl url page) = none →
        jet_listing_elementor fetch [url] page = [] ∧
        jet_listing_elementor fetch [url] page =
          jet_listing_elementor (fun _ => some ⟨[], []⟩) [url] page) ∧
    (∀ fetch url page, fetch (articleSourceUrl url page) = none →
        article_block_h2_p_date fetch [url] page = [] ∧
        article_block_h2_p_date fetch [url] page =
          article_block_h2_p_date (fun _ => some []) [url] page) ∧
    (∀ fetch url page, fetch (pageQueryUrl url page) = none →
        table_time fetch [url] page = [] ∧
        table_time fetch [url] page = table_time (fun _ => some []) [url] page) ∧
    (∀ fetch url page, fetch (pageQueryUrl url page) = none →
        element_post_media fetch [url] page = [] ∧
        element_post_media fetch [url] page =
          element_post_media (fun _ => some []) [url] page) := by
  refine ⟨?_, ?_, ?_, ?_, ?_⟩ <;> intro fetch url page h <;>
    simp [table_recordlist_date, jet_listing_elementor, article_block_h2_p_date,
      table_time, element_post_media, h]

/-- C7 witness: a concrete always-failing fetch yields the empty sequence
for a concrete page request of the table family. -/
theorem c7_fetch_failure_witness :
    table_recordlist_date (fun _ => none) ["https://www.a.gov/press"] 1 = [] ∧
    table_recordlist_date (fun _ => none) ["https://www.a.gov/press"] 1 =
      table_recordlist_date (fun _ => some []) ["https://www.a.gov/press"] 1 :=
  c7_fetch_failure.1 (fun _ => none) "https://www.a.gov/press" 1 rfl

/-- C8.  Dispatching a legislator whose (lowercased) last name has no
registered scraper — including the conditional `scott`/`king` entries
whose value is `None` for a non-matching first name — returns the empty
sequence, and the result does not depend on the scraper-running function
at all: no scraper is invoked, hence no network request is made. -/
theorem c8_unregistered_dispatch :
    ∀ run run' info, mapGet (scraper_map info) (lowerL info.last_name) = none →
      scrape_with_known_scrapers run info = [] ∧
      scrape_with_known_scrapers run info = scrape_with_known_scrapers run' info := by
  intro run run' info h
  unfold scrape_with_known_scrapers
  rw [h]
  exact ⟨rfl, rfl⟩

/-- C8 witness: the name `smith` is not registered; dispatch returns `[]`
for two arbitrarily different scraper-running functions. -/
theorem c8_unregistered_dispatch_witness :
    scrape_with_known_scrapers
        (fun _ => some [{ source := "s", url := "u", title := "t", date := none, domain := "d" }])
        { last_name := "Smith", first_name := "Jane" } = [] ∧
    scrape_with_known_scrapers
        (fun _ => some [{ source := "s", url := "u", title := "t", date := none, domain := "d" }])
        { last_name := "Smith", first_name := "Jane" } =
      scrape_with_known_scrapers (fun _ => none) { last_name := "Smith", first_name := "Jane" } :=
  c8_unregistered_dispatch _ _ { last_name := "Smith", first_name := "Jane" } (by decide)

/-- C9.  `table_time` discards the first selected table row
unconditionally (`doc.select("table tr")[1:]`): whatever the first row
contains, the output is computed from the remaining rows only, so a
container appearing as the first row is never emitted. -/
theorem c9_first_row_dropped :
    ∀ fetch url page row rest, fetch (pageQueryUrl url page) = some (row :: rest) →
      table_time fetch [url] page = rest.filterMap (tableTimeRow url (netlocOf url)) := by
  intro fetch url page row rest h
  simp [table_time, h]

/-- C9 witness: a single-row table whose row holds a valid link and date
produces no records, although the row itself would have yielded one. -/
theorem c9_first_row_dropped_witness :
    table_time c9fetch ["https://barr.house.gov/media-center/press-releases"] 1 = [] ∧
    (tableTimeRow "https://barr.house.gov/media-center/press-releases"
        (netlocOf "https://barr.house.gov/media-center/press-releases") c9row).isSome = true := by
  constructor
  · have h := c9_first_row_dropped c9fetch
      "https://barr.house.gov/media-center/press-releases" 1 c9row [] (by rfl)
    simpa using h
  · rfl

/-- C6.  Counterexample to the claim that every scheme-less candidate
resolves to exactly origin + path: `Utils.absolute_link` resolves a
relative candidate against the full base URL (RFC relative resolution via
`urljoin`), not against the bare origin, so `foo.html` against
`https://a.com/news/` keeps the `/news/` directory. -/
theorem c6_counterexample :
    absolute_link "https://a.com/news/" "foo.html" = "https://a.com/news/foo.html" ∧
    absolute_link "https://a.com/news/" "foo.html" ≠
      "https://" ++ netlocOf "https://a.com/news/" ++ "foo.html" := by
  exact ⟨by rfl, by decide⟩

/-- C6 (amended).  A candidate starting with `http` is returned unchanged
by `Utils.absolute_link`; in `table_recordlist_date` (and `table_time`,
which shares the code) any other candidate is resolved to exactly
`https://` + domain + candidate (origin-plus-path with a forced `https`
scheme); `Utils.absolute_link` instead resolves other candidates with
`urljoin`, which yields origin-plus-path exactly for root-relative
candidates such as `/press/1`. -/
theorem c6_resolver_amended :
    (∀ url link, startsWithL ('h':: 't':: 't':: 'p'::[]) link.data = true →
        absolute_link url link = link) ∧
    (∀ u dm row link cell, row.a = some link → row.tdRecordListDate = some cell →
        startsWithL ('h':: 't':: 't':: 'p'::[]) link.href.data = false →
        ∃ r, tableRecordlistRow u dm row = some r ∧
          r.url = "https://" ++ dm ++ link.href) ∧
    absolute_link "https://a.com/news/" "/press/1" = "https://a.com/press/1" := by
  refine ⟨?_, ?_, by rfl⟩
  · intro url link h
    simp [absolute_link, h]
  · intro u dm row link cell ha htd h
    obtain ⟨a, td⟩ := row
    cases ha
    cases htd
    exact ⟨_, rfl, by simp [tableRecordlistRow, h]⟩

/-- C6 witness: the two quantified parts applied at concrete inputs. -/
theorem c6_resolver_witness :
    absolute_link "https://a.com/x" "https://b.org/y" = "https://b.org/y" ∧
    ∃ r, tableRecordlistRow "https://www.a.gov/press" "www.a.gov"
        { a := some { href := "/news/1", text := "T" },
          tdRecordListDate := some { text := "01/15/24" } } = some r ∧
      r.url = "https://" ++ "www.a.gov" ++ "/news/1" :=
  ⟨c6_resolver_amended.1 "https://a.com/x" "https://b.org/y" (by decide),
   c6_resolver_amended.2.1 "https://www.a.gov/press" "www.a.gov"
     { a := some { href := "/news/1", text := "T" },
       tdRecordListDate := some { text := "01/15/24" } }
     { href := "/news/1", text := "T" } { text := "01/15/24" } rfl rfl (by decide)⟩

/-- C10.  Counterexample to the claim that a candidate with a non-`http`
scheme prefix is resolved against the base URL: `Utils.absolute_link`
hands it to `urljoin`, which returns a cross-scheme absolute URL
unchanged — the result is the input itself and carries nothing of the
base. -/
theorem c10_counterexample :
    absolute_link "https://a.com/x" "ftp://c.org/d" = "ftp://c.org/d" ∧
    hasSub ('a':: '.':: 'c':: 'o':: 'm'::[]) (absolute_link "https://a.com/x" "ftp://c.org/d").data = false := by
  exact ⟨by rfl, by rfl⟩

/-- C10 (amended).  Absoluteness is decided solely by the literal prefix
`http`: any candidate starting with those four characters is returned
unchanged — even a relative name like `http-page.html`; any other
candidate is handed to the resolution step, which in the
table extractors prepends `https://` + domain unconditionally (even to
`ftp://...`), while `Utils.absolute_link`'s `urljoin` returns a candidate
with a different scheme unchanged. -/
theorem c10_amended :
    (∀ url link, startsWithL ('h':: 't':: 't':: 'p'::[]) link.data = true →
        absolute_link url link = link) ∧
    absolute_link "https://a.com/b" "http-page.html" = "http-page.html" ∧
    (∀ u dm row link cell, row.a = some link → row.tdRecordListDate = some cell →
        startsWithL ('h':: 't':: 't':: 'p'::[]) link.href.data = false →
        ∃ r, tableRecordlistRow u dm row = some r ∧
          r.url = "https://" ++ dm ++ link.href) ∧
    absolute_link "https://a.com/x" "ftp://c.org/d" = "ftp://c.org/d" := by
  refine ⟨?_, by rfl, ?_, by rfl⟩
  · intro url link h
    simp [absolute_link, h]
  · intro u dm row link cell ha htd h
    obtain ⟨a, td⟩ := row
    cases ha
    cases htd
    exact ⟨_, rfl, by simp [tableRecordlistRow, h]⟩

/-- C10 witness: the quantified parts at concrete inputs — an `ftp` href
inside a table row gets `https://` + domain prepended. -/
theorem c10_amended_witness :
    absolute_link "https://a.com/x" "httpx" = "httpx" ∧
    ∃ r, tableRecordlistRow "https://www.a.gov/press" "www.a.gov"
        { a := some { href := "ftp://c.org/d", text := "T" },
          tdRecordListDate := some { text := "01/15/24" } } = some r ∧
      r.url = "https://" ++ "www.a.gov" ++ "ftp://c.org/d" :=
  ⟨c10_amended.1 "https://a.com/x" "httpx" (by decide),
   c10_amended.2.2.1 "https://www.a.gov/press" "www.a.gov"
     { a := some { href := "ftp://c.org/d", text := "T" },
       tdRecordListDate := some { text := "01/15/24" } }
     { href := "ftp://c.org/d", text := "T" } { text := "01/15/24" } rfl rfl (by decide)⟩

/-- C4.  Counterexample to the claim that the pagination step yields
exactly one page marker, replacing any existing one: the
`table_recordlist_date` page-URL construction appends unconditionally, so
a base URL already carrying `page=2` ends up with two `page=` markers. -/
theorem c4_counterexample :
    pageQueryUrl "https://a.gov/news?page=2" 3 = "https://a.gov/news?page=2&page=3" ∧
    countSub pageMarker (pageQueryUrl "https://a.gov/news?page=2" 3).data = 2 := by
  exact ⟨by rfl, by rfl⟩

theorem startsWithL_stop (x : Char) :
    ∀ (n t b : List Char), x ∉ n → startsWithL n (t ++ x :: b) = startsWithL n t := by
  intro n
  induction n with
  | nil => intro t b _; simp [startsWithL]
  | cons p ps ih =>
    intro t b hx
    cases t with
    | nil =>
      have hxp : ¬(x = p) := fun h => hx (by simp [h])
      simp [startsWithL, hxp]
    | cons c t' =>
      have hps : x ∉ ps := fun h => hx (List.mem_cons_of_mem _ h)
      simp only [List.cons_append, startsWithL, List.append_eq]
      rw [ih t' b hps]

theorem countSub_append_stop (x : Char) (n : List Char) (hx : x ∉ n) :
    ∀ a b, countSub n (a ++ x :: b) = countSub n a + countSub n (x :: b) := by
  intro a
  induction a with
  | nil => intro b; simp [countSub]
  | cons c a' ih =>
    intro b
    have hs := startsWithL_stop x n (c :: a') b hx
    simp only [List.cons_append, List.append_eq] at hs
    simp only [List.cons_append, countSub, List.append_eq, hs, ih b]
    omega

theorem countSub_head_absent (p : Char) (n' : List Char) :
    ∀ l, p ∉ l → countSub (p :: n') l = 0 := by
  intro l
  induction l with
  | nil => intro _; rfl
  | cons c l' ih =>
    intro h
    have hcp : ¬(c = p) := fun hh => h (by simp [hh])
    have hsw : startsWithL (p :: n') (c :: l') = false := by
      simp [startsWithL, hcp]
    simp only [countSub, hsw, if_false]
    simpa using ih (fun hm => h (List.mem_cons_of_mem _ hm))

theorem startsWithL_self_append : ∀ (n rest : List Char), startsWithL n (n ++ rest) = true := by
  intro n
  induction n with
  | nil => intro rest; rfl
  | cons c n' ih => intro rest; simp [startsWithL, ih]

theorem digitChar_isDigit (k : Nat) (h : k < 10) : isDigitC (Nat.digitChar k) = true := by
  interval_cases k <;> decide

theorem natCharsFuel_mono :
    ∀ (n f1 f2 : Nat), n < f1 → n < f2 → natCharsFuel f1 n = natCharsFuel f2 n := by
  intro n
  induction n using Nat.strong_induction_on with
  | _ n ih =>
    intro f1 f2 h1 h2
    match f1, f2 with
    | a + 1, b + 1 =>
      simp only [natCharsFuel]
      by_cases h : n < 10
      · simp [h]
      · simp only [h, if_false]
        rw [ih (n / 10) (by omega) a b (by omega) (by omega)]

theorem natChars_eq (n : Nat) :
    natChars n =
      if n < 10 then [Nat.digitChar n] else natChars (n / 10) ++ [Nat.digitChar (n % 10)] := by
  by_cases h : n < 10
  · simp [natChars, natCharsFuel, h]
  · have h1 : natChars n = natCharsFuel n (n / 10) ++ [Nat.digitChar (n % 10)] := by
      simp only [natChars, natCharsFuel, h, if_false]
    rw [h1, if_neg h, natCharsFuel_mono (n / 10) n (n / 10 + 1) (by omega) (by omega)]
    rfl

theorem natChars_digits : ∀ n, ∀ c ∈ natChars n, isDigitC c = true := by
  intro n
  induction n using Nat.strong_induction_on with
  | _ n ih =>
    intro c hc
    rw [natChars_eq] at hc
    by_cases h : n < 10
    · simp only [h, if_true, List.mem_singleton] at hc
      exact hc ▸ digitChar_isDigit n h
    · simp only [h, if_false, List.mem_append, List.mem_singleton] at hc
      rcases hc with hc | hc
      · exact ih (n / 10) (by omega) c hc
      · exact hc ▸ digitChar_isDigit _ (by omega)

theorem countSub_pageMarker_append (a D : List Char) (sep : Char)
    (h0 : countSub pageMarker a = 0) (hsep : sep ∉ pageMarker)
    (hD : ∀ c ∈ D, isDigitC c = true) (hsepP : decide (sep = 'p') = false) :
    countSub pageMarker (a ++ sep :: (pageMarker ++ D)) = 1 := by
  rw [countSub_append_stop sep pageMarker hsep a (pageMarker ++ D), h0]
  have h1 : startsWithL pageMarker (sep :: (pageMarker ++ D)) = false := by
    simp only [pageMarker, startsWithL, hsepP, Bool.false_and]
  have hpD : 'p' ∉ D := by
    intro hm
    have := hD 'p' hm
    simp [isDigitC] at this
  have h2 : countSub pageMarker D = 0 :=
    countSub_head_absent 'p' ('a' :: 'g' :: 'e' :: '=' :: []) D hpD
  have f1 : startsWithL pageMarker ('p' :: 'a' :: 'g' :: 'e' :: '=' :: D) = true :=
    startsWithL_self_append pageMarker D
  have g2 : startsWithL pageMarker ('a' :: 'g' :: 'e' :: '=' :: D) = false := by
    simp [pageMarker, startsWithL]
  have g3 : startsWithL pageMarker ('g' :: 'e' :: '=' :: D) = false := by
    simp [pageMarker, startsWithL]
  have g4 : startsWithL pageMarker ('e' :: '=' :: D) = false := by
    simp [pageMarker, startsWithL]
  have g5 : startsWithL pageMarker ('=' :: D) = false := by
    simp [pageMarker, startsWithL]
  simp only [countSub, List.append_eq, List.cons_append, List.nil_append, h1, f1, g2, g3,
    g4, g5, if_true, if_false, Nat.zero_add]
  simp [h2]

/-- C4 (amended).  The `page=` convention (`table_recordlist_date`,
`table_time`, `element_post_media`) appends its marker unconditionally:
for a base URL containing no `page=` substring the result carries exactly
one `page=` marker (set to the requested page), while a pre-existing
marker is kept and a second one appended (see the counterexample) rather
than replaced.  The `article_block_h2_p_date` and `jet_listing_elementor`
conventions do replace an existing marker of their target forms in
place. -/
theorem c4_pagination_amended :
    (∀ url page, countSub pageMarker url.data = 0 →
        countSub pageMarker (pageQueryUrl url page).data = 1) ∧
    articleSourceUrl "https://a.gov/x?PageNum_rs=7" 3 = "https://a.gov/x?PageNum_rs=3" ∧
    articleSourceUrl "https://a.gov/x" 2 = "https://a.gov/x?PageNum_rs=2" ∧
    jetSourceUrl "https://a.gov/press/pagenum/4/" 2 = "https://a.gov/press/pagenum/2/" := by
  refine ⟨?_, by rfl, by rfl, by rfl⟩
  intro url page h
  unfold pageQueryUrl
  by_cases hq : url.data.contains '?'
  · rw [if_pos hq]
    rw [data_append, data_append]
    have hm : ("&page=" : String).data = '&' :: pageMarker := rfl
    have hn : (natStr page).data = natChars page := rfl
    rw [hm, hn]
    simp only [List.append_assoc, List.cons_append]
    exact countSub_pageMarker_append url.data (natChars page) '&' h (by decide)
      (natChars_digits page) (by decide)
  · rw [if_neg hq]
    rw [data_append, data_append]
    have hm : ("?page=" : String).data = '?' :: pageMarker := rfl
    have hn : (natStr page).data = natChars page := rfl
    rw [hm, hn]
    simp only [List.append_assoc, List.cons_append]
    exact countSub_pageMarker_append url.data (natChars page) '?' h (by decide)
      (natChars_digits page) (by decide)

/-- C4 witness: a marker-free base URL receives exactly one page marker. -/
theorem c4_pagination_witness :
    countSub pageMarker (pageQueryUrl "https://a.gov/news" 3).data = 1 :=
  c4_pagination_amended.1 "https://a.gov/news" 3 (by decide)

theorem daysInMonth_le (y m : Nat) : daysInMonth y m ≤ 31 := by
  unfold daysInMonth
  split
  · split <;> omega
  · split <;> omega

theorem validDate_bounds (dt : Date) (hv : validDateB dt = true) :
    1 ≤ dt.year ∧ dt.year ≤ 9999 ∧ 1 ≤ dt.month ∧ dt.month ≤ 12 ∧ 1 ≤ dt.day ∧
      dt.day ≤ 31 ∧ mkDate dt.year dt.month dt.day = some dt := by
  simp only [validDateB, Bool.and_eq_true, decide_eq_true_eq] at hv
  obtain ⟨⟨⟨⟨⟨h1, h2⟩, h3⟩, h4⟩, h5⟩, h6⟩ := hv
  refine ⟨h1, h2, h3, h4, h5, le_trans h6 (daysInMonth_le _ _), ?_⟩
  unfold mkDate
  rw [if_pos ⟨h1, h2, h3, h4, h5, h6⟩]

theorem digitVal_digitChar (k : Nat) (h : k < 10) : digitVal (Nat.digitChar k) = k := by
  interval_cases k <;> rfl

theorem isWsC_digitChar (k : Nat) (h : k < 10) : isWsC (Nat.digitChar k) = false := by
  interval_cases k <;> rfl

theorem readMonth_pad2 (m : Nat) (h1 : 1 ≤ m) (h2 : m ≤ 12) (rest : List Char) :
    readMonthNum (pad2c m ++ rest) = some (m, rest) := by
  interval_cases m <;> rfl

theorem readDay_pad2 (d : Nat) (h1 : 1 ≤ d) (h2 : d ≤ 31) (rest : List Char) :
    readDayNum (pad2c d ++ rest) = some (d, rest) := by
  interval_cases d <;> rfl

theorem read2_pad2 (n : Nat) (h : n ≤ 99) (rest : List Char) :
    read2Digits (pad2c n ++ rest) = some (n, rest) := by
  have h1 := digitChar_isDigit (n / 10 % 10) (by omega)
  have h2 := digitChar_isDigit (n % 10) (by omega)
  have v1 := digitVal_digitChar (n / 10 % 10) (by omega)
  have v2 := digitVal_digitChar (n % 10) (by omega)
  simp only [pad2c, List.cons_append, List.nil_append, read2Digits, h1, h2, Bool.and_self,
    if_true, v1, v2]
  have hval : n / 10 % 10 * 10 + n % 10 = n := by omega
  rw [hval]

theorem natChars4 (y : Nat) (h1 : 1000 ≤ y) (h2 : y ≤ 9999) :
    natChars y = [Nat.digitChar (y / 1000), Nat.digitChar (y / 100 % 10),
      Nat.digitChar (y / 10 % 10), Nat.digitChar (y % 10)] := by
  have e1 : y / 10 / 10 = y / 100 := by omega
  have e2 : y / 100 / 10 = y / 1000 := by omega
  rw [natChars_eq y, if_neg (by omega)]
  rw [natChars_eq (y / 10), if_neg (by omega), e1]
  rw [natChars_eq (y / 100), if_neg (by omega), e2]
  rw [natChars_eq (y / 1000), if_pos (by omega)]
  simp

theorem read4_natChars (y : Nat) (h1 : 1000 ≤ y) (h2 : y ≤ 9999) (rest : List Char) :
    read4Digits (natChars y ++ rest) = some (y, rest) := by
  rw [natChars4 y h1 h2]
  have d1 := digitChar_isDigit (y / 1000) (by omega)
  have d2 := digitChar_isDigit (y / 100 % 10) (by omega)
  have d3 := digitChar_isDigit (y / 10 % 10) (by omega)
  have d4 := digitChar_isDigit (y % 10) (by omega)
  have v1 := digitVal_digitChar (y / 1000) (by omega)
  have v2 := digitVal_digitChar (y / 100 % 10) (by omega)
  have v3 := digitVal_digitChar (y / 10 % 10) (by omega)
  have v4 := digitVal_digitChar (y % 10) (by omega)
  simp only [List.cons_append, List.nil_append, read4Digits, d1, d2, d3, d4, Bool.and_self,
    Bool.and_true, Bool.true_and, if_true, v1, v2, v3, v4]
  have hval : ((y / 1000 * 10 + y / 100 % 10) * 10 + y / 10 % 10) * 10 + y % 10 = y := by
    omega
  rw [hval]

theorem read2_natChars4 (y : Nat) (h1 : 1000 ≤ y) (h2 : y ≤ 9999) (rest : List Char) :
    read2Digits (natChars y ++ rest) = some (y / 1000 * 10 + y / 100 % 10,
      Nat.digitChar (y / 10 % 10) :: Nat.digitChar (y % 10) :: rest) := by
  rw [natChars4 y h1 h2]
  have d1 := digitChar_isDigit (y / 1000) (by omega)
  have d2 := digitChar_isDigit (y / 100 % 10) (by omega)
  have v1 := digitVal_digitChar (y / 1000) (by omega)
  have v2 := digitVal_digitChar (y / 100 % 10) (by omega)
  simp only [List.cons_append, List.nil_append, read2Digits, d1, d2, Bool.and_self, if_true,
    v1, v2]

theorem expectChar_digit (k : Nat) (h : k < 10) (c : Char) (hc : isDigitC c = false)
    (rest : List Char) : expectChar c (Nat.digitChar k :: rest) = none := by
  have : ¬(Nat.digitChar k = c) := by
    intro he
    rw [← he] at hc
    rw [digitChar_isDigit k h] at hc
    cases hc
  simp [expectChar, this]

theorem readMonthNum_shapes (c1 c2 : Char) (rest : List Char) :
    readMonthNum (c1 :: c2 :: rest) = none ∨
    (∃ v, readMonthNum (c1 :: c2 :: rest) = some (v, rest)) ∨
    (∃ v, readMonthNum (c1 :: c2 :: rest) = some (v, c2 :: rest)) := by
  simp only [readMonthNum]
  split_ifs <;> simp

theorem readMonthFull_digit (k : Nat) (h : k < 10) (rest : List Char) :
    readMonthFull (Nat.digitChar k :: rest) = none := by
  interval_cases k <;> rfl

theorem readMonthAbbr_digit (k : Nat) (h : k < 10) (rest : List Char) :
    readMonthAbbr (Nat.digitChar k :: rest) = none := by
  interval_cases k <;> rfl

theorem readMonthFull_name (m : Nat) (h1 : 1 ≤ m) (h2 : m ≤ 12) (rest : List Char) :
    readMonthFull (monthFullChars m ++ rest) = some (m, rest) := by
  interval_cases m <;> rfl

theorem readMonthAbbr_name (m : Nat) (h1 : 1 ≤ m) (h2 : m ≤ 12) (rest : List Char) :
    readMonthAbbr (monthAbbrChars m ++ rest) = some (m, rest) := by
  interval_cases m <;> rfl

theorem dropWhileWs_digit (k : Nat) (h : k < 10) (rest : List Char) :
    List.dropWhile isWsC (Nat.digitChar k :: rest) = Nat.digitChar k :: rest := by
  simp [List.dropWhile_cons, isWsC_digitChar k h]

theorem replaceDots_keep : ∀ l : List Char, (∀ c ∈ l, ¬(c = '.')) → replaceDots l = l := by
  intro l
  induction l with
  | nil => intro _; rfl
  | cons c l' ih =>
    intro h
    have hc : ¬(c = '.') := h c (List.mem_cons_self c l')
    simp only [replaceDots, List.map_cons, if_neg hc]
    have := ih (fun x hx => h x (List.mem_cons_of_mem _ hx))
    simp only [replaceDots] at this
    rw [this]

theorem digit_ne_dot (c : Char) (h : isDigitC c = true) : ¬(c = '.') := by
  intro he
  subst he
  cases h

theorem pad2c_digits (n : Nat) : ∀ c ∈ pad2c n, isDigitC c = true := by
  intro c hc
  simp only [pad2c, List.mem_cons, List.not_mem_nil, or_false] at hc
  rcases hc with hc | hc
  · exact hc ▸ digitChar_isDigit _ (by omega)
  · exact hc ▸ digitChar_isDigit _ (by omega)

theorem monthFullChars_no_dot (m : Nat) (h1 : 1 ≤ m) (h2 : m ≤ 12) :
    ∀ c ∈ monthFullChars m, ¬(c = '.') := by
  interval_cases m <;> decide

theorem monthAbbrChars_no_dot (m : Nat) (h1 : 1 ≤ m) (h2 : m ≤ 12) :
    ∀ c ∈ monthAbbrChars m, ¬(c = '.') := by
  interval_cases m <;> decide

theorem articleTry_same : ∀ (fs : List DateFormat) (cs : List Char),
    articleTry fs cs cs = parseDateListC fs cs := by
  intro fs
  induction fs with
  | nil => intro cs; rfl
  | cons f fs ih =>
    intro cs
    simp only [articleTry, parseDateListC]
    cases parseFmtC f cs <;> simp [ih]

theorem expectChar_self (c : Char) (X : List Char) : expectChar c (c :: X) = some X := by
  simp [expectChar]

theorem read2_pad2_nil (n : Nat) (h : n ≤ 99) : read2Digits (pad2c n) = some (n, []) := by
  have := read2_pad2 n h []
  simpa using this

theorem readDay_pad2_nil (d : Nat) (h1 : 1 ≤ d) (h2 : d ≤ 31) :
    readDayNum (pad2c d) = some (d, []) := by
  have := readDay_pad2 d h1 h2 []
  simpa using this

theorem read4_natChars_nil (y : Nat) (h1 : 1000 ≤ y) (h2 : y ≤ 9999) :
    read4Digits (natChars y) = some (y, []) := by
  have := read4_natChars y h1 h2 []
  simpa using this

theorem mapY2_eq (y : Nat) (h1 : 2000 ≤ y) (h2 : y ≤ 2068) : mapY2 (y % 100) = y := by
  simp only [mapY2]
  rw [if_pos (by omega)]
  omega

theorem parse_mdy2_print (dt : Date) (hv : validDateB dt = true) (hy1 : 2000 ≤ dt.year)
    (hy2 : dt.year ≤ 2068) : parseFmtC .mdy2 (fmtChars .mdy2 dt) = some dt := by
  obtain ⟨_, _, hm1, hm2, hd1, hd31, hmk⟩ := validDate_bounds dt hv
  simp only [parseFmtC, fmtChars, parseMDY, List.append_assoc, List.cons_append,
    readMonth_pad2 dt.month hm1 hm2, expectChar_self, readDay_pad2 dt.day hd1 hd31, if_true,
    read2_pad2_nil (dt.year % 100) (by omega), Option.map_some']
  rw [mapY2_eq dt.year hy1 hy2]
  exact hmk

theorem expectChar_ne (c x : Char) (h : ¬(x = c)) (X : List Char) :
    expectChar c (x :: X) = none := by
  simp [expectChar, h]

theorem read2_natChars4_nil (y : Nat) (h1 : 1000 ≤ y) (h2 : y ≤ 9999) :
    read2Digits (natChars y) = some (y / 1000 * 10 + y / 100 % 10,
      Nat.digitChar (y / 10 % 10) :: Nat.digitChar (y % 10) :: []) := by
  have := read2_natChars4 y h1 h2 []
  simpa using this

theorem skipWs1_space (X : List Char) : skipWs1 (' ' :: X) = some (X.dropWhile isWsC) := by
  simp [skipWs1, isWsC]

theorem dropWhileWs_pad2 (k : Nat) (X : List Char) :
    List.dropWhile isWsC (pad2c k ++ X) = pad2c k ++ X := by
  have h := isWsC_digitChar (k / 10 % 10) (by omega)
  simp [pad2c, List.dropWhile_cons, h]

theorem dropWhileWs_natChars (y : Nat) (h1 : 1000 ≤ y) (h2 : y ≤ 9999) :
    List.dropWhile isWsC (natChars y) = natChars y := by
  rw [natChars4 y h1 h2]
  have h := isWsC_digitChar (y / 1000) (by omega)
  simp [List.dropWhile_cons, h]

theorem readMonthNum_fullName (m : Nat) (h1 : 1 ≤ m) (h2 : m ≤ 12) (rest : List Char) :
    readMonthNum (monthFullChars m ++ rest) = none := by
  interval_cases m <;> rfl

theorem readMonthNum_abbrName (m : Nat) (h1 : 1 ≤ m) (h2 : m ≤ 12) (rest : List Char) :
    readMonthNum (monthAbbrChars m ++ rest) = none := by
  interval_cases m <;> rfl

theorem readMonthFull_on_abbr (m : Nat) (h1 : 1 ≤ m) (h2 : m ≤ 12) (rest : List Char) :
    readMonthFull (monthAbbrChars m ++ ' ' :: rest) =
      if m = 5 then some (5, ' ' :: rest) else none := by
  interval_cases m <;> rfl

theorem parseMDY_sep_mismatch (sep sep' : Char) (hne : ¬(sep' = sep)) (y2b : Bool) (m : Nat)
    (hm1 : 1 ≤ m) (hm2 : m ≤ 12) (X : List Char) :
    parseMDY sep y2b (pad2c m ++ sep' :: X) = none := by
  simp only [parseMDY, readMonth_pad2 m hm1 hm2, expectChar_ne sep sep' hne]

theorem parseMDY_on_fullName (sep : Char) (y2b : Bool) (m : Nat) (hm1 : 1 ≤ m) (hm2 : m ≤ 12)
    (rest : List Char) : parseMDY sep y2b (monthFullChars m ++ rest) = none := by
  simp only [parseMDY, readMonthNum_fullName m hm1 hm2]

theorem parseMDY_on_abbrName (sep : Char) (y2b : Bool) (m : Nat) (hm1 : 1 ≤ m) (hm2 : m ≤ 12)
    (rest : List Char) : parseMDY sep y2b (monthAbbrChars m ++ rest) = none := by
  simp only [parseMDY, readMonthNum_abbrName m hm1 hm2]

theorem parseMDY_on_iso (sep : Char) (hsep : isDigitC sep = false) (y2b : Bool) (y : Nat)
    (h1 : 1000 ≤ y) (h2 : y ≤ 9999) (rest : List Char) :
    parseMDY sep y2b (natChars y ++ rest) = none := by
  rw [natChars4 y h1 h2]
  simp only [List.cons_append, List.nil_append]
  rcases readMonthNum_shapes (Nat.digitChar (y / 1000)) (Nat.digitChar (y / 100 % 10))
      (Nat.digitChar (y / 10 % 10) :: Nat.digitChar (y % 10) :: rest) with h | ⟨v, h⟩ | ⟨v, h⟩
  · simp [parseMDY, h]
  · simp [parseMDY, h, expectChar_digit (y / 10 % 10) (by omega) sep hsep]
  · simp [parseMDY, h, expectChar_digit (y / 100 % 10) (by omega) sep hsep]

theorem parseNameDY_on_iso (ab : Bool) (y : Nat) (h1 : 1000 ≤ y) (h2 : y ≤ 9999)
    (rest : List Char) : parseNameDY ab (natChars y ++ rest) = none := by
  rw [natChars4 y h1 h2]
  simp only [List.cons_append, List.nil_append]
  cases ab
  · simp [parseNameDY, readMonthFull_digit (y / 1000) (by omega)]
  · simp [parseNameDY, readMonthAbbr_digit (y / 1000) (by omega)]

theorem parse_mdY4_print (dt : Date) (hv : validDateB dt = true) (hy1 : 1000 ≤ dt.year)
    (hy2 : dt.year ≤ 9999) : parseFmtC .mdY4 (fmtChars .mdY4 dt) = some dt := by
  obtain ⟨_, _, hm1, hm2, hd1, hd31, hmk⟩ := validDate_bounds dt hv
  simp only [parseFmtC, fmtChars, parseMDY, List.append_assoc, List.cons_append,
    readMonth_pad2 dt.month hm1 hm2, expectChar_self, readDay_pad2 dt.day hd1 hd31,
    Bool.false_eq_true, if_false, read4_natChars_nil dt.year hy1 hy2]
  exact hmk

theorem parse_mdy2_on_mdY4 (dt : Date) (hv : validDateB dt = true) (hy1 : 1000 ≤ dt.year)
    (hy2 : dt.year ≤ 9999) : parseFmtC .mdy2 (fmtChars .mdY4 dt) = none := by
  obtain ⟨_, _, hm1, hm2, hd1, hd31, _⟩ := validDate_bounds dt hv
  simp only [parseFmtC, fmtChars, parseMDY, List.append_assoc, List.cons_append,
    readMonth_pad2 dt.month hm1 hm2, expectChar_self, readDay_pad2 dt.day hd1 hd31, if_true,
    read2_natChars4_nil dt.year hy1 hy2, Option.map_some']

theorem parse_mdoty2_print (dt : Date) (hv : validDateB dt = true) (hy1 : 2000 ≤ dt.year)
    (hy2 : dt.year ≤ 2068) : parseFmtC .mdoty2 (fmtChars .mdoty2 dt) = some dt := by
  obtain ⟨_, _, hm1, hm2, hd1, hd31, hmk⟩ := validDate_bounds dt hv
  simp only [parseFmtC, fmtChars, parseMDY, List.append_assoc, List.cons_append,
    readMonth_pad2 dt.month hm1 hm2, expectChar_self, readDay_pad2 dt.day hd1 hd31, if_true,
    read2_pad2_nil (dt.year % 100) (by omega), Option.map_some']
  rw [mapY2_eq dt.year hy1 hy2]
  exact hmk

theorem parse_mdotY4_print (dt : Date) (hv : validDateB dt = true) (hy1 : 1000 ≤ dt.year)
    (hy2 : dt.year ≤ 9999) : parseFmtC .mdotY4 (fmtChars .mdotY4 dt) = some dt := by
  obtain ⟨_, _, hm1, hm2, hd1, hd31, hmk⟩ := validDate_bounds dt hv
  simp only [parseFmtC, fmtChars, parseMDY, List.append_assoc, List.cons_append,
    readMonth_pad2 dt.month hm1 hm2, expectChar_self, readDay_pad2 dt.day hd1 hd31,
    Bool.false_eq_true, if_false, read4_natChars_nil dt.year hy1 hy2]
  exact hmk

theorem parse_mdoty2_on_mdotY4 (dt : Date) (hv : validDateB dt = true) (hy1 : 1000 ≤ dt.year)
    (hy2 : dt.year ≤ 9999) : parseFmtC .mdoty2 (fmtChars .mdotY4 dt) = none := by
  obtain ⟨_, _, hm1, hm2, hd1, hd31, _⟩ := validDate_bounds dt hv
  simp only [parseFmtC, fmtChars, parseMDY, List.append_assoc, List.cons_append,
    readMonth_pad2 dt.month hm1 hm2, expectChar_self, readDay_pad2 dt.day hd1 hd31, if_true,
    read2_natChars4_nil dt.year hy1 hy2, Option.map_some']

theorem parse_BdY_print (dt : Date) (hv : validDateB dt = true) (hy1 : 1000 ≤ dt.year)
    (hy2 : dt.year ≤ 9999) : parseFmtC .BdY (fmtChars .BdY dt) = some dt := by
  obtain ⟨_, _, hm1, hm2, hd1, hd31, hmk⟩ := validDate_bounds dt hv
  simp only [parseFmtC, fmtChars, parseNameDY, Bool.false_eq_true, if_false,
    List.append_assoc, List.cons_append, readMonthFull_name dt.month hm1 hm2,
    skipWs1_space, dropWhileWs_pad2, readDay_pad2 dt.day hd1 hd31, expectChar_self,
    dropWhileWs_natChars dt.year hy1 hy2, read4_natChars_nil dt.year hy1 hy2]
  exact hmk

theorem parse_bdY_print (dt : Date) (hv : validDateB dt = true) (hy1 : 1000 ≤ dt.year)
    (hy2 : dt.year ≤ 9999) : parseFmtC .bdY (fmtChars .bdY dt) = some dt := by
  obtain ⟨_, _, hm1, hm2, hd1, hd31, hmk⟩ := validDate_bounds dt hv
  simp only [parseFmtC, fmtChars, parseNameDY, if_true,
    List.append_assoc, List.cons_append, readMonthAbbr_name dt.month hm1 hm2,
    skipWs1_space, dropWhileWs_pad2, readDay_pad2 dt.day hd1 hd31, expectChar_self,
    dropWhileWs_natChars dt.year hy1 hy2, read4_natChars_nil dt.year hy1 hy2]
  exact hmk

theorem parse_BdY_on_bdY (dt : Date) (hv : validDateB dt = true) (hy1 : 1000 ≤ dt.year)
    (hy2 : dt.year ≤ 9999) :
    parseFmtC .BdY (fmtChars .bdY dt) = if dt.month = 5 then some dt else none := by
  obtain ⟨_, _, hm1, hm2, hd1, hd31, hmk⟩ := validDate_bounds dt hv
  by_cases hm5 : dt.month = 5
  · rw [if_pos hm5]
    simp only [parseFmtC, fmtChars, parseNameDY, Bool.false_eq_true, if_false,
      List.append_assoc, List.cons_append]
    rw [readMonthFull_on_abbr dt.month hm1 hm2, if_pos hm5]
    simp only [skipWs1_space, dropWhileWs_pad2, readDay_pad2 dt.day hd1 hd31, expectChar_self,
      dropWhileWs_natChars dt.year hy1 hy2, read4_natChars_nil dt.year hy1 hy2]
    rw [← hm5]
    exact hmk
  · rw [if_neg hm5]
    simp only [parseFmtC, fmtChars, parseNameDY, Bool.false_eq_true, if_false,
      List.append_assoc, List.cons_append]
    rw [readMonthFull_on_abbr dt.month hm1 hm2, if_neg hm5]

theorem parse_iso_print (dt : Date) (hv : validDateB dt = true) (hy1 : 1000 ≤ dt.year)
    (hy2 : dt.year ≤ 9999) : parseFmtC .iso (fmtChars .iso dt) = some dt := by
  obtain ⟨_, _, hm1, hm2, hd1, hd31, hmk⟩ := validDate_bounds dt hv
  simp only [parseFmtC, fmtChars, parseIsoYmd, List.append_assoc, List.cons_append,
    read4_natChars dt.year hy1 hy2, expectChar_self, readMonth_pad2 dt.month hm1 hm2,
    readDay_pad2_nil dt.day hd1 hd31]
  exact hmk

theorem tableLadder_y2 (dt : Date) (hv : validDateB dt = true) (hy1 : 2000 ≤ dt.year)
    (hy2 : dt.year ≤ 2068) :
    parseDateListC tableRecordlistFormats (fmtChars .mdy2 dt) = some dt ∧
    parseDateListC tableRecordlistFormats (fmtChars .mdoty2 dt) = some dt := by
  obtain ⟨_, _, hm1, hm2, _, _, _⟩ := validDate_bounds dt hv
  constructor
  · simp only [tableRecordlistFormats, parseDateListC, parse_mdy2_print dt hv hy1 hy2]
  · have f1 : parseFmtC .mdy2 (fmtChars .mdoty2 dt) = none := by
      simp only [parseFmtC, fmtChars, List.append_assoc, List.cons_append,
        parseMDY_sep_mismatch '/' '.' (by decide) true dt.month hm1 hm2]
    have f2 : parseFmtC .mdY4 (fmtChars .mdoty2 dt) = none := by
      simp only [parseFmtC, fmtChars, List.append_assoc, List.cons_append,
        parseMDY_sep_mismatch '/' '.' (by decide) false dt.month hm1 hm2]
    simp only [tableRecordlistFormats, parseDateListC, f1, f2,
      parse_mdoty2_print dt hv hy1 hy2]

theorem tableLadder_y4 (dt : Date) (hv : validDateB dt = true) (hy1 : 1000 ≤ dt.year)
    (hy2 : dt.year ≤ 9999) :
    parseDateListC tableRecordlistFormats (fmtChars .mdY4 dt) = some dt ∧
    parseDateListC tableRecordlistFormats (fmtChars .mdotY4 dt) = some dt ∧
    parseDateListC tableRecordlistFormats (fmtChars .BdY dt) = some dt := by
  obtain ⟨_, _, hm1, hm2, _, _, _⟩ := validDate_bounds dt hv
  refine ⟨?_, ?_, ?_⟩
  · simp only [tableRecordlistFormats, parseDateListC, parse_mdy2_on_mdY4 dt hv hy1 hy2,
      parse_mdY4_print dt hv hy1 hy2]
  · have f1 : parseFmtC .mdy2 (fmtChars .mdotY4 dt) = none := by
      simp only [parseFmtC, fmtChars, List.append_assoc, List.cons_append,
        parseMDY_sep_mismatch '/' '.' (by decide) true dt.month hm1 hm2]
    have f2 : parseFmtC .mdY4 (fmtChars .mdotY4 dt) = none := by
      simp only [parseFmtC, fmtChars, List.append_assoc, List.cons_append,
        parseMDY_sep_mismatch '/' '.' (by decide) false dt.month hm1 hm2]
    simp only [tableRecordlistFormats, parseDateListC, f1, f2,
      parse_mdoty2_on_mdotY4 dt hv hy1 hy2, parse_mdotY4_print dt hv hy1 hy2]
  · have f1 : parseFmtC .mdy2 (fmtChars .BdY dt) = none := by
      simp only [parseFmtC, fmtChars, List.append_assoc, List.cons_append,
        parseMDY_on_fullName '/' true dt.month hm1 hm2]
    have f2 : parseFmtC .mdY4 (fmtChars .BdY dt) = none := by
      simp only [parseFmtC, fmtChars, List.append_assoc, List.cons_append,
        parseMDY_on_fullName '/' false dt.month hm1 hm2]
    have f3 : parseFmtC .mdoty2 (fmtChars .BdY dt) = none := by
      simp only [parseFmtC, fmtChars, List.append_assoc, List.cons_append,
        parseMDY_on_fullName '.' true dt.month hm1 hm2]
    have f4 : parseFmtC .mdotY4 (fmtChars .BdY dt) = none := by
      simp only [parseFmtC, fmtChars, List.append_assoc, List.cons_append,
        parseMDY_on_fullName '.' false dt.month hm1 hm2]
    simp only [tableRecordlistFormats, parseDateListC, f1, f2, f3, f4,
      parse_BdY_print dt hv hy1 hy2]

theorem articleLadder_y2 (dt : Date) (hv : validDateB dt = true) (hy1 : 2000 ≤ dt.year)
    (hy2 : dt.year ≤ 2068) :
    parseDateListC articleFormats (fmtChars .mdy2 dt) = some dt := by
  simp only [articleFormats, parseDateListC, parse_mdy2_print dt hv hy1 hy2]

theorem articleLadder_y4 (dt : Date) (hv : validDateB dt = true) (hy1 : 1000 ≤ dt.year)
    (hy2 : dt.year ≤ 9999) :
    parseDateListC articleFormats (fmtChars .mdY4 dt) = some dt ∧
    parseDateListC articleFormats (fmtChars .BdY dt) = some dt ∧
    parseDateListC articleFormats (fmtChars .bdY dt) = some dt ∧
    parseDateListC articleFormats (fmtChars .iso dt) = some dt := by
  obtain ⟨_, _, hm1, hm2, _, _, _⟩ := validDate_bounds dt hv
  refine ⟨?_, ?_, ?_, ?_⟩
  · simp only [articleFormats, parseDateListC, parse_mdy2_on_mdY4 dt hv hy1 hy2,
      parse_mdY4_print dt hv hy1 hy2]
  · have f1 : parseFmtC .mdy2 (fmtChars .BdY dt) = none := by
      simp only [parseFmtC, fmtChars, List.append_assoc, List.cons_append,
        parseMDY_on_fullName '/' true dt.month hm1 hm2]
    have f2 : parseFmtC .mdY4 (fmtChars .BdY dt) = none := by
      simp only [parseFmtC, fmtChars, List.append_assoc, List.cons_append,
        parseMDY_on_fullName '/' false dt.month hm1 hm2]
    simp only [articleFormats, parseDateListC, f1, f2, parse_BdY_print dt hv hy1 hy2]
  · have f1 : parseFmtC .mdy2 (fmtChars .bdY dt) = none := by
      simp only [parseFmtC, fmtChars, List.append_assoc, List.cons_append,
        parseMDY_on_abbrName '/' true dt.month hm1 hm2]
    have f2 : parseFmtC .mdY4 (fmtChars .bdY dt) = none := by
      simp only [parseFmtC, fmtChars, List.append_assoc, List.cons_append,
        parseMDY_on_abbrName '/' false dt.month hm1 hm2]
    have f3 := parse_BdY_on_bdY dt hv hy1 hy2
    by_cases hm5 : dt.month = 5
    · rw [if_pos hm5] at f3
      simp only [articleFormats, parseDateListC, f1, f2, f3]
    · rw [if_neg hm5] at f3
      simp only [articleFormats, parseDateListC, f1, f2, f3, parse_bdY_print dt hv hy1 hy2]
  · have f1 : parseFmtC .mdy2 (fmtChars .iso dt) = none := by
      simp only [parseFmtC, fmtChars, List.append_assoc, List.cons_append,
        parseMDY_on_iso '/' (by decide) true dt.year hy1 hy2]
    have f2 : parseFmtC .mdY4 (fmtChars .iso dt) = none := by
      simp only [parseFmtC, fmtChars, List.append_assoc, List.cons_append,
        parseMDY_on_iso '/' (by decide) false dt.year hy1 hy2]
    have f3 : parseFmtC .BdY (fmtChars .iso dt) = none := by
      simp only [parseFmtC, fmtChars, List.append_assoc, List.cons_append,
        parseNameDY_on_iso false dt.year hy1 hy2]
    have f4 : parseFmtC .bdY (fmtChars .iso dt) = none := by
      simp only [parseFmtC, fmtChars, List.append_assoc, List.cons_append,
        parseNameDY_on_iso true dt.year hy1 hy2]
    simp only [articleFormats, parseDateListC, f1, f2, f3, f4,
      parse_iso_print dt hv hy1 hy2]

theorem replaceDots_digitChar (k : Nat) (h : k < 10) :
    (if Nat.digitChar k = '.' then '/' else Nat.digitChar k) = Nat.digitChar k := by
  interval_cases k <;> rfl

theorem replaceDots_pad2 (k : Nat) : replaceDots (pad2c k) = pad2c k := by
  simp only [replaceDots, pad2c, List.map_cons, List.map_nil,
    replaceDots_digitChar (k / 10 % 10) (by omega), replaceDots_digitChar (k % 10) (by omega)]

theorem replaceDots_natChars (n : Nat) : replaceDots (natChars n) = natChars n :=
  replaceDots_keep _ (fun c hc => digit_ne_dot c (natChars_digits n c hc))

theorem replaceDots_monthFull (m : Nat) (h1 : 1 ≤ m) (h2 : m ≤ 12) :
    replaceDots (monthFullChars m) = monthFullChars m :=
  replaceDots_keep _ (monthFullChars_no_dot m h1 h2)

theorem replaceDots_monthAbbr (m : Nat) (h1 : 1 ≤ m) (h2 : m ≤ 12) :
    replaceDots (monthAbbrChars m) = monthAbbrChars m :=
  replaceDots_keep _ (monthAbbrChars_no_dot m h1 h2)

theorem replaceDots_append (a b : List Char) :
    replaceDots (a ++ b) = replaceDots a ++ replaceDots b := by
  simp [replaceDots]

theorem replaceDots_cons (c : Char) (cs : List Char) :
    replaceDots (c :: cs) = (if c = '.' then '/' else c) :: replaceDots cs := rfl

theorem replaceDots_print (dt : Date) (hm1 : 1 ≤ dt.month) (hm2 : dt.month ≤ 12) :
    replaceDots (fmtChars .mdy2 dt) = fmtChars .mdy2 dt ∧
    replaceDots (fmtChars .mdY4 dt) = fmtChars .mdY4 dt ∧
    replaceDots (fmtChars .BdY dt) = fmtChars .BdY dt ∧
    replaceDots (fmtChars .bdY dt) = fmtChars .bdY dt ∧
    replaceDots (fmtChars .iso dt) = fmtChars .iso dt := by
  refine ⟨?_, ?_, ?_, ?_, ?_⟩ <;>
    simp [fmtChars, replaceDots_append, replaceDots_cons, replaceDots_pad2,
      replaceDots_natChars, replaceDots_monthFull dt.month hm1 hm2,
      replaceDots_monthAbbr dt.month hm1 hm2]

theorem parseArticleDate_print (f : DateFormat) (dt : Date)
    (hnd : replaceDots (fmtChars f dt) = fmtChars f dt) :
    parseArticleDate (strftimeD f dt) = parseDateListC articleFormats (fmtChars f dt) := by
  show articleTry articleFormats (replaceDots (fmtChars f dt)) (fmtChars f dt) = _
  rw [hnd, articleTry_same]

theorem parseDateListC_none : ∀ (fs : List DateFormat) (cs : List Char),
    parseDateListC fs cs = none ↔ ∀ f ∈ fs, parseFmtC f cs = none := by
  intro fs
  induction fs with
  | nil => intro cs; simp [parseDateListC]
  | cons f fs ih =>
    intro cs
    simp only [parseDateListC]
    cases h : parseFmtC f cs <;> simp [h, ih]

/-- C3.  Counterexample to the per-format round trip over all valid
dates: the valid date 1950-01-15 formatted with the two-digit-year slash
format gives `01/15/50`, which the table extractor's ladder parses back —
through CPython's two-digit-year pivot (00-68 mapped into 2000-2068) — as
2050-01-15, not 1950-01-15. -/
theorem c3_counterexample :
    validDateB ⟨1950, 1, 15⟩ = true ∧
    strftimeD .mdy2 ⟨1950, 1, 15⟩ = "01/15/50" ∧
    parseDateList tableRecordlistFormats (strftimeD .mdy2 ⟨1950, 1, 15⟩) =
      some ⟨2050, 1, 15⟩ ∧
    (⟨2050, 1, 15⟩ : Date) ≠ ⟨1950, 1, 15⟩ := by
  exact ⟨by decide, by rfl, by rfl, by decide⟩

/-- C3 (amended).  The per-format round trip `parse (format d f) = d`
holds through both cited extractor ladders for every valid date whose
year the format can represent faithfully: years 2000-2068 for the
two-digit-year formats (CPython's `%y` pivot maps 00-68 to 2000-2068, so
other years cannot round-trip) and years 1000-9999 for the
four-digit-year formats (`%Y` is printed unpadded and parsed as exactly
four digits).  An input string matched by no format yields an absent
date — by construction the ladder never raises and returns `none` exactly
when every format fails. -/
theorem c3_roundtrip_amended :
    (∀ dt : Date, validDateB dt = true →
      ((2000 ≤ dt.year ∧ dt.year ≤ 2068) →
        parseDateList tableRecordlistFormats (strftimeD .mdy2 dt) = some dt ∧
        parseDateList tableRecordlistFormats (strftimeD .mdoty2 dt) = some dt) ∧
      ((1000 ≤ dt.year ∧ dt.year ≤ 9999) →
        parseDateList tableRecordlistFormats (strftimeD .mdY4 dt) = some dt ∧
        parseDateList tableRecordlistFormats (strftimeD .mdotY4 dt) = some dt ∧
        parseDateList tableRecordlistFormats (strftimeD .BdY dt) = some dt)) ∧
    (∀ dt : Date, validDateB dt = true →
      ((2000 ≤ dt.year ∧ dt.year ≤ 2068) →
        parseArticleDate (strftimeD .mdy2 dt) = some dt) ∧
      ((1000 ≤ dt.year ∧ dt.year ≤ 9999) →
        parseArticleDate (strftimeD .mdY4 dt) = some dt ∧
        parseArticleDate (strftimeD .BdY dt) = some dt ∧
        parseArticleDate (strftimeD .bdY dt) = some dt ∧
        parseArticleDate (strftimeD .iso dt) = some dt)) ∧
    (∀ (fs : List DateFormat) (s : String),
      parseDateList fs s = none ↔ ∀ f ∈ fs, parseFormat f s = none) := by
  refine ⟨?_, ?_, ?_⟩
  · intro dt hv
    constructor
    · intro ⟨hy1, hy2⟩
      exact tableLadder_y2 dt hv hy1 hy2
    · intro ⟨hy1, hy2⟩
      exact tableLadder_y4 dt hv hy1 hy2
  · intro dt hv
    obtain ⟨_, _, hm1, hm2, _, _, _⟩ := validDate_bounds dt hv
    obtain ⟨r1, r2, r3, r4, r5⟩ := replaceDots_print dt hm1 hm2
    constructor
    · intro ⟨hy1, hy2⟩
      rw [parseArticleDate_print .mdy2 dt r1]
      exact articleLadder_y2 dt hv hy1 hy2
    · intro ⟨hy1, hy2⟩
      obtain ⟨a1, a2, a3, a4⟩ := articleLadder_y4 dt hv hy1 hy2
      exact ⟨by rw [parseArticleDate_print .mdY4 dt r2]; exact a1,
        by rw [parseArticleDate_print .BdY dt r3]; exact a2,
        by rw [parseArticleDate_print .bdY dt r4]; exact a3,
        by rw [parseArticleDate_print .iso dt r5]; exact a4⟩
  · intro fs s
    exact parseDateListC_none fs s.data

/-- C3 witness: the round trips and the all-formats-fail characterisation
at concrete inputs. -/
theorem c3_roundtrip_witness :
    parseDateList tableRecordlistFormats (strftimeD .mdy2 ⟨2024, 1, 15⟩) =
      some ⟨2024, 1, 15⟩ ∧
    parseArticleDate (strftimeD .iso ⟨2024, 1, 15⟩) = some ⟨2024, 1, 15⟩ ∧
    parseDateList tableRecordlistFormats "not a date" = none :=
  ⟨((c3_roundtrip_amended.1 ⟨2024, 1, 15⟩ (by decide)).1 ⟨by decide, by decide⟩).1,
   ((c3_roundtrip_amended.2.1 ⟨2024, 1, 15⟩ (by decide)).2 ⟨by decide, by decide⟩).2.2.2,
   (c3_roundtrip_amended.2.2 tableRecordlistFormats "not a date").mpr (by decide)⟩
